import Mathlib

/-!
# discord-rpc-go: frame codec and client session

A shallow embedding of `transport/ipc/framing.go`, `transport/ipc/types.go`,
`transport/ipc/conn_windows.go`, `client/activity.go` and `client/client.go`, followed by
the properties of the specification that were checked against it.

Conventions of the embedding.
* A byte is a `Fin 256`; a Go `[]byte` is a `List Byte`.
* A Go `int32` is an `Int` in the range `[-2^31, 2^31)`; the conversion of a wider integer
  to `int32` is the explicit wrap-around `int32`.
* A Go function returning `(value, error)` returns an `Except`, or a pair of the new state
  and an optional error; `DecodeFrameOp`, whose slice expressions and allocation could
  panic, returns a `GoResult`, which has a third outcome for a run-time panic.
-/

namespace DiscordRPC

/-! ## Machine integers and bytes -/

abbrev Byte := Fin 256

/-- The Go conversion `int32(n)` of a wider integer: two's complement truncation. -/
def int32 (n : Int) : Int := (n + 2147483648) % 4294967296 - 2147483648

/-- The values a Go `int32` can hold. -/
def isInt32 (n : Int) : Prop := -2147483648 ≤ n ∧ n < 2147483648

instance (n : Int) : Decidable (isInt32 n) := by unfold isInt32; exact inferInstance

/-- Byte `i` (0 = least significant) of a natural number. -/
def byteAt (u : Nat) (i : Nat) : Byte := ⟨(u / 256 ^ i) % 256, Nat.mod_lt _ (by decide)⟩

/-- The four bytes `binary.Write(buf, binary.LittleEndian, v)` appends for an `int32` value
`v`: the two's complement bit pattern, least significant byte first. -/
def putInt32LE (v : Int) : List Byte :=
  let u := (v % 4294967296).toNat
  [byteAt u 0, byteAt u 1, byteAt u 2, byteAt u 3]

/-- The unsigned 32-bit value of four little-endian bytes
(`binary.LittleEndian.Uint32`). -/
def uint32LE (b0 b1 b2 b3 : Byte) : Nat :=
  b0.val + 256 * b1.val + 65536 * b2.val + 16777216 * b3.val

/-! ## transport/ipc/types.go -/

/-- The Go type `OpCode int32`. -/
abbrev OpCode := Int

def OpHandshake : OpCode := 0
def OpFrame : OpCode := 1
def OpActivity : OpCode := 2
def OpReady : OpCode := 3
def OpClose : OpCode := 4
def OpActivityJoin : OpCode := 5
def OpActivitySpectate : OpCode := 6
def OpActivityJoinRequest : OpCode := 7

/-! ## transport/ipc/framing.go -/

/-- Errors of the frame codec. `marshal` is an error of `json.Marshal`; the other two are
the `fmt.Errorf` values of `DecodeFrameOp`. -/
inductive FrameError where
  | marshal (msg : String)
  | bufferTooSmall
  | lengthMismatch (expected : Int) (got : Int)
  deriving DecidableEq, Repr

/-- Outcome of `DecodeFrameOp`: a value, a returned error, or a run-time panic (of `make`
with a negative length or of a slice expression out of bounds). -/
inductive GoResult (α : Type) where
  | ok (a : α)
  | err (e : FrameError)
  | panic (msg : String)
  deriving DecidableEq, Repr

/-- Whether the call returned a non-nil error. -/
def GoResult.failed {α : Type} : GoResult α → Bool
  | .err _ => true
  | _ => false

/-- Source `EncodeFrameOp`: marshal the payload, then write `int32(op)`, `int32(len(j))`
(both little-endian) and `j` to a fresh buffer. The serializer `json.Marshal` is a
parameter; writes to a `bytes.Buffer` do not fail. -/
def EncodeFrameOp {α : Type} (marshal : α → Except String (List Byte)) (op : OpCode)
    (payload : α) : Except FrameError (List Byte) :=
  match marshal payload with
  | .error e => .error (.marshal e)
  | .ok j => .ok (putInt32LE (int32 op) ++ putInt32LE (int32 (j.length : Int)) ++ j)

/-- Source `binaryLittleEndianToInt32`: `binary.Read` of an `int32` from the bytes; the
error of a short read is discarded and `v` keeps its zero value. -/
def binaryLittleEndianToInt32 (b : List Byte) : Int :=
  match b with
  | b0 :: b1 :: b2 :: b3 :: _ => int32 (uint32LE b0 b1 b2 b3 : Nat)
  | _ => 0

/-- The Go slice expression `b[lo:hi]` on a slice whose capacity is its length; `none` is
the bounds panic. -/
def slice (b : List Byte) (lo hi : Int) : Option (List Byte) :=
  if 0 ≤ lo ∧ lo ≤ hi ∧ hi ≤ (b.length : Int) then
    some ((b.drop lo.toNat).take (hi - lo).toNat)
  else none

/-- The Go builtin `copy(dst, src)`: the contents of `dst` afterwards. -/
def copy (dst src : List Byte) : List Byte :=
  src.take dst.length ++ dst.drop src.length

/-- Source `DecodeFrameOp`. Every slice expression and the allocation `make` can panic;
`b[8:]` is `b[8:len(b)]`. -/
def DecodeFrameOp (b : List Byte) : GoResult (OpCode × List Byte) :=
  if b.length < 8 then .err .bufferTooSmall
  else
    match slice b 0 4, slice b 4 8, slice b 8 (b.length : Int) with
    | some h0, some h1, some rest =>
      let op : OpCode := binaryLittleEndianToInt32 h0
      let length : Int := binaryLittleEndianToInt32 h1
      if (rest.length : Int) ≠ length then
        .err (.lengthMismatch length (rest.length : Int))
      else if length < 0 then .panic "makeslice: len out of range"
      else
        match slice b 8 (8 + length) with
        | none => .panic "slice bounds out of range"
        | some src => .ok (op, copy (List.replicate length.toNat 0) src)
    | _, _, _ => .panic "slice bounds out of range"

/-- A serialized body of 2 GiB: `2^31` ASCII digits `1` (a JSON number literal), as a
`json.RawMessage`, which `json.Marshal` returns unchanged. -/
def body2GiB : List Byte := List.replicate 2147483648 49

/-! ## Strings

A Go string is modelled by a Lean `String`, a sequence of Unicode code points (Go strings
that are not valid UTF-8 are outside the model). -/

/-- The Go predicate `unicode.IsSpace`, which `strings.TrimSpace` uses. -/
def isSpace (c : Char) : Bool :=
  let n := c.toNat
  n == 0x09 || n == 0x0A || n == 0x0B || n == 0x0C || n == 0x0D || n == 0x20
    || n == 0x85 || n == 0xA0 || n == 0x1680 || (0x2000 ≤ n && n ≤ 0x200A)
    || n == 0x2028 || n == 0x2029 || n == 0x202F || n == 0x205F || n == 0x3000

/-- The Go function `strings.TrimSpace`: the string without its leading and trailing white
space. -/
def TrimSpace (s : String) : String :=
  ⟨((s.data.dropWhile isSpace).reverse.dropWhile isSpace).reverse⟩

/-- The Go function `strings.HasPrefix`. -/
def HasPrefix (s pre : String) : Bool := pre.data.isPrefixOf s.data

/-! ## client/activity.go -/

/-- The Go type `ActivityType int`. -/
abbrev ActivityType := Int

def Playing : ActivityType := 0
def Listening : ActivityType := 2
def Watching : ActivityType := 3
def Competing : ActivityType := 5

structure Button where
  Label : String
  Url : String
  deriving DecidableEq, Repr

structure Party where
  ID : String
  Size : List Int
  deriving DecidableEq, Repr

structure Assets where
  LargeImage : String
  LargeText : String
  SmallImage : String
  SmallText : String
  deriving DecidableEq, Repr

structure Timestamps where
  Start : Int
  End : Int
  deriving DecidableEq, Repr

/-- Source `Activity`. A nil pointer is `none`; a nil or empty map or slice is `[]`; the
map `Secrets` is the list of its entries. -/
structure Activity where
  /-- The Go field `Type`. -/
  Type_ : ActivityType
  State : String
  Details : String
  Timestamps : Option Timestamps
  Assets : Option Assets
  Party : Option Party
  Secrets : List (String × String)
  Buttons : List Button
  deriving DecidableEq, Repr

/-- Source `Activity.IsEmpty`. -/
def Activity.IsEmpty (a : Activity) : Bool :=
  a.State == "" && a.Details == "" && a.Timestamps.isNone && a.Assets.isNone
    && a.Party.isNone && a.Secrets.length == 0 && a.Buttons.length == 0

/-! ## Documents

Values of the Go type `any` that occur in the documents the client builds and receives. -/

inductive Any where
  | null
  | bool (b : Bool)
  | int (n : Int)
  | str (s : String)
  | list (xs : List Any)
  | timestamps (t : Timestamps)
  | party (p : Party)
  | secrets (m : List (String × String))
  | buttons (bs : List Button)
  | map (m : List (String × Any))

/-- The Go type `map[string]any`, as the list of its entries; the keys are distinct. -/
abbrev GoMap := List (String × Any)

/-- The Go assignment `m[k] = v`. -/
def mapSet : GoMap → String → Any → GoMap
  | [], k, v => [(k, v)]
  | e :: m, k, v => if e.1 = k then (k, v) :: m else e :: mapSet m k v

/-- The Go index expression `m[k]`; `none` when the key is absent. -/
def mapGet : GoMap → String → Option Any
  | [], _ => none
  | e :: m, k => if e.1 = k then some e.2 else mapGet m k

/-- The keys of a map. -/
def mapKeys (m : GoMap) : List String := m.map Prod.fst

/-! ## The button filter in the words of the specification -/

/-- A button with white space trimmed from its label and its url. -/
def trimButton (b : Button) : Button := { Label := TrimSpace b.Label, Url := TrimSpace b.Url }

/-- A button that survives the filter: label and url non-empty, url starting with
`http://` or `https://`. -/
def allowedButton (b : Button) : Bool :=
  decide (b.Label ≠ "") && decide (b.Url ≠ "")
    && (HasPrefix b.Url "http://" || HasPrefix b.Url "https://")

/-- The button filter of the specification: trim, drop the buttons that are not allowed,
keep the first 2 survivors in their original order. -/
def specButtons (bs : List Button) : List Button :=
  ((bs.map trimButton).filter allowedButton).take 2

/-! ## client/client.go -/

/-- Source `ipc.Conn`, as far as the client observes it: the field `closed`, and whether a
`Write` and a `Close` on the underlying pipe return an error. -/
structure Conn where
  closed : Bool
  writeFails : Bool
  closeFails : Bool
  deriving DecidableEq, Repr

/-- Errors returned by the client's methods. -/
inductive ClientError where
  | notConnected
  | connectionClosed
  | write
  | encode (e : FrameError)
  | alreadyConnected
  | dial
  | handshakeSend
  | close
  deriving DecidableEq, Repr

/-- Source `Client`. An observer field holds whether an observer is registered. -/
structure Client where
  AppID : String
  transport : Option Conn
  verbose : Bool
  onReady : Bool
  onError : Bool
  onClose : Bool
  onActivityJoin : Bool
  onActivitySpectate : Bool
  onActivityJoinRequest : Bool
  pendingActivity : Option Activity
  ready : Bool
  activity : Activity
  reconnect : Bool
  closed : Bool
  deriving DecidableEq, Repr

/-- What the client does to its collaborators, in order: a `Write` on the pipe with the
bytes handed to it, a call of the ready observer with the event's data, a call of
`ipc.NewConn` and whether it returned a connection, a `Close` on the pipe, a `time.Sleep`
of so many seconds, the statement `go c.readLoop()`, and a call of the error observer. -/
inductive Effect where
  | write (bytes : List Byte)
  | onReady (data : Option GoMap)
  | dial (ok : Bool)
  | closeConn
  | sleep (seconds : Nat)
  | spawnReadLoop
  | onError

/-- The collaborators' answers: the process id (`os.Getpid`), the sequence of identifiers
returned by `uuid.NewString`, and the serializer `json.Marshal`, which does not fail on the
documents the client builds. -/
structure Env where
  pid : Int
  uuid : Nat → String
  json : Any → List Byte

/-- The client together with the number of identifiers drawn so far and the effects
performed so far. Calls are sequential; an observer does not call back into the client. -/
structure World where
  c : Client
  uuids : Nat
  trace : List Effect

/-- Source `NewClient`. -/
def NewClient (appID : String) : Client :=
  { AppID := appID, transport := none, verbose := false, onReady := false, onError := false,
    onClose := false, onActivityJoin := false, onActivitySpectate := false,
    onActivityJoinRequest := false, pendingActivity := none, ready := false,
    activity := ⟨0, "", "", none, none, none, [], []⟩, reconnect := true, closed := false }

/-- Source `Conn.SendRaw`: an error without a write when the connection is closed,
otherwise one `Write` on the pipe and its error. -/
def Conn.SendRaw (conn : Conn) (trace : List Effect) (b : List Byte) :
    List Effect × Option ClientError :=
  if conn.closed then (trace, some .connectionClosed)
  else (trace ++ [.write b], if conn.writeFails then some .write else none)

/-- Source `Conn.SendOp`. -/
def Conn.SendOp (env : Env) (conn : Conn) (trace : List Effect) (op : OpCode)
    (payload : Any) : List Effect × Option ClientError :=
  match EncodeFrameOp (fun d => Except.ok (env.json d)) op payload with
  | .ok data => conn.SendRaw trace data
  | .error e => (trace, some (.encode e))

/-- Source `sendSetActivity`, lines 136 to 147: the loop that collects the valid buttons,
started with `validButtons` as accumulated so far. -/
def validButtonsLoop : List Button → List Button → List Button
  | [], validButtons => validButtons
  | b :: rest, validButtons =>
    let label := TrimSpace b.Label
    let url := TrimSpace b.Url
    if label == "" || url == "" || !(HasPrefix url "http://" || HasPrefix url "https://") then
      validButtonsLoop rest validButtons
    else
      let validButtons := validButtons ++ [{ Label := label, Url := url }]
      if validButtons.length == 2 then validButtons
      else validButtonsLoop rest validButtons

/-- Source `sendSetActivity`, lines 132 to 148: a party with a size pair and no identity gets
a fresh identifier, and the buttons are replaced by the valid ones. Returns the activity and
the number of identifiers drawn. The identifier is not written back through the shared
`*Party` pointer, so the model follows the code for the first send of an activity and for
every send of an activity that needs no generated identifier. -/
def normalizeActivity (env : Env) (uuids : Nat) (act : Activity) : Activity × Nat :=
  let r : Option Party × Nat :=
    match act.Party with
    | some p =>
      if p.Size.length == 2 && p.ID == "" then (some { p with ID := env.uuid uuids }, uuids + 1)
      else (some p, uuids)
    | none => (none, uuids)
  ({ act with Party := r.1, Buttons := validButtonsLoop act.Buttons [] }, r.2)

/-- Source `sendSetActivity`, lines 174 to 190: the `assets` document. -/
def assetsDoc (act : Activity) (a : Assets) : GoMap :=
  let assets : GoMap := []
  let assets :=
    if a.LargeImage ≠ "" then
      let assets := mapSet assets "large_image" (.str a.LargeImage)
      if a.LargeText = "" then mapSet assets "large_text" (.str act.State)
      else mapSet assets "large_text" (.str a.LargeText)
    else assets
  let assets :=
    if a.SmallImage ≠ "" then
      let assets := mapSet assets "small_image" (.str a.SmallImage)
      if a.SmallText = "" then mapSet assets "small_text" (.str act.State)
      else mapSet assets "small_text" (.str a.SmallText)
    else assets
  assets

/-- Source `sendSetActivity`, lines 150 to 192: the activity document `payloadAct`, built
from the normalized activity. -/
def payloadAct (act : Activity) : GoMap :=
  let m : GoMap := []
  let m := mapSet m "type" (.int act.Type_)
  let m := if act.State ≠ "" then mapSet m "state" (.str act.State) else m
  let m := if act.Details ≠ "" then mapSet m "details" (.str act.Details) else m
  let m :=
    match act.Timestamps with
    | some t => if t.Start ≠ 0 ∨ t.End ≠ 0 then mapSet m "timestamps" (.timestamps t) else m
    | none => m
  let m :=
    match act.Party with
    | some p => if p.Size.length = 2 then mapSet m "party" (.party p) else m
    | none => m
  let m := if act.Secrets.length > 0 then mapSet m "secrets" (.secrets act.Secrets) else m
  let m := if act.Buttons.length > 0 then mapSet m "buttons" (.buttons act.Buttons) else m
  let m :=
    match act.Assets with
    | some a => mapSet m "assets" (.map (assetsDoc act a))
    | none => m
  m

/-- Source `sendSetActivity`, lines 132 to 203: the command document `payload` and the
number of identifiers drawn after it is built. -/
def setActivityPayload (env : Env) (uuids : Nat) (act : Activity) : GoMap × Nat :=
  let r := normalizeActivity env uuids act
  let args : GoMap := [("pid", .int env.pid), ("activity", .map (payloadAct r.1))]
  ([("cmd", .str "SET_ACTIVITY"), ("args", .map args), ("nonce", .str (env.uuid r.2))],
    r.2 + 1)

/-- Source `Client.sendSetActivity`. -/
def sendSetActivity (env : Env) (w : World) (act : Activity) : World × Option ClientError :=
  match w.c.transport with
  | none => (w, some .notConnected)
  | some conn =>
    let p := setActivityPayload env w.uuids act
    let r := conn.SendOp env w.trace OpFrame (.map p.1)
    ({ w with uuids := p.2, trace := r.1 }, r.2)

/-- Source `Client.SetActivity`. -/
def SetActivity (env : Env) (w : World) (act : Activity) : World × Option ClientError :=
  let w := { w with c := { w.c with activity := act } }
  if !w.c.ready then
    ({ w with c := { w.c with pendingActivity := some act } }, none)
  else sendSetActivity env w act

/-- Source `Client.handleIncoming`. -/
def handleIncoming (env : Env) (w : World) (_op : OpCode) (doc : GoMap) : World :=
  match mapGet doc "evt" with
  | some (.str evt) =>
    if evt == "READY" then
      let w := { w with c := { w.c with ready := true } }
      let d : Option GoMap :=
        match mapGet doc "data" with
        | some (.map tmp) => some tmp
        | _ => none
      let w := if w.c.onReady then { w with trace := w.trace ++ [.onReady d] } else w
      let pa := w.c.pendingActivity
      let w := { w with c := { w.c with pendingActivity := none } }
      match pa with
      | some a => (sendSetActivity env w a).1
      | none => w
    else w
  | _ => w

/-! ## Observations on a run -/

/-- The byte strings handed to `Write` on the pipe, in order. -/
def writes : List Effect → List (List Byte)
  | [] => []
  | .write b :: t => b :: writes t
  | _ :: t => writes t

/-- A sequence of `SetActivity` calls, one after the other; the returned errors are
dropped. -/
def setActivities (env : Env) (w : World) (acts : List Activity) : World :=
  acts.foldl (fun w a => (SetActivity env w a).1) w

/-- A collaborator environment for the examples: process id 4242, identifiers `id`
followed by one `x` per identifier drawn before, and a serializer that writes `{}`. -/
def exampleEnv : Env :=
  { pid := 4242, uuid := fun n => ⟨'i' :: 'd' :: List.replicate n 'x'⟩,
    json := fun _ => [123, 125] }

/-- The bytes of a string of ASCII characters. -/
def asciiBytes (s : String) : List Byte :=
  s.data.map (fun c => (⟨c.toNat % 256, Nat.mod_lt _ (by decide)⟩ : Byte))

/-- A serializer for the examples that writes of a command document only the state of its
activity, and nothing of any other document: frames of activities with different states
differ. -/
def stateJson : Any → List Byte
  | .map m =>
    match mapGet m "args" with
    | some (.map args) =>
      match mapGet args "activity" with
      | some (.map act) =>
        match mapGet act "state" with
        | some (.str st) => asciiBytes st
        | _ => []
      | _ => []
    | _ => []
  | _ => []

/-- The collaborator environment of the examples with `stateJson` as its serializer. -/
def stateEnv : Env :=
  { pid := 4242, uuid := fun n => ⟨'i' :: 'd' :: List.replicate n 'x'⟩, json := stateJson }

/-- An activity for the examples: state `Playing` and an assets block with the large image
`logo` and no captions. -/
def exampleActivity : Activity :=
  { Type_ := 0, State := "Playing", Details := "", Timestamps := none,
    Assets := some ⟨"logo", "", "", ""⟩, Party := none, Secrets := [], Buttons := [] }

/-- A second activity for the examples: state `Idle`, nothing else. -/
def idleActivity : Activity :=
  { Type_ := 0, State := "Idle", Details := "", Timestamps := none, Assets := none,
    Party := none, Secrets := [], Buttons := [] }

/-- A READY event as it arrives from the peer, without a data payload. -/
def readyDoc : GoMap := [("cmd", .str "DISPATCH"), ("evt", .str "READY")]

/-- A client for the examples: connected over an open pipe, not ready. -/
def exampleWorld : World :=
  { c := { NewClient "app" with transport := some ⟨false, false, false⟩ }, uuids := 0, trace := [] }

/-! ## client/client.go: connecting, closing, reconnecting -/

/-- Source `Conn.Close` (transport/ipc/conn_windows.go): nothing when already closed,
otherwise the flag is set and the pipe is closed. Returns the connection, the trace and the
error. -/
def Conn.Close (conn : Conn) (trace : List Effect) :
    Conn × List Effect × Option ClientError :=
  if conn.closed then (conn, trace, none)
  else ({ conn with closed := true }, trace ++ [.closeConn],
    if conn.closeFails then some .close else none)

/-- Source `Client.Connect`. `dial` is the answer of `ipc.NewConn` should it be called:
`none` for an error, otherwise the pipe behind the new connection. -/
def Connect (env : Env) (w : World) (dial : Option Conn) : World × Option ClientError :=
  match w.c.transport with
  | some _ => (w, some .alreadyConnected)
  | none =>
    match dial with
    | none => ({ w with trace := w.trace ++ [Effect.dial false] }, some .dial)
    | some pipe =>
      let conn : Conn := { pipe with closed := false }
      let w := { w with c := { w.c with transport := some conn, closed := false },
                        trace := w.trace ++ [Effect.dial true] }
      let hs : GoMap := [("v", .int 1), ("client_id", .str w.c.AppID)]
      let r := conn.SendOp env w.trace OpHandshake (.map hs)
      match r.2 with
      | some _ =>
        let cl := conn.Close r.1
        ({ w with c := { w.c with transport := none }, trace := cl.2.1 }, some .handshakeSend)
      | none => ({ w with trace := r.1 ++ [Effect.spawnReadLoop] }, none)

/-- Source `Client.Close`. -/
def Close (w : World) : World × Option ClientError :=
  let w := { w with c := { w.c with reconnect := false, closed := true } }
  match w.c.transport with
  | some conn =>
    let cl := conn.Close w.trace
    ({ w with c := { w.c with transport := none }, trace := cl.2.1 }, cl.2.2)
  | none => (w, none)

/-- Source `Client.tryReconnect`, the `for` loop: `n` iterations remain, `i` is the loop
counter and `backoff` the current delay in seconds; `dials i` is the answer of
`ipc.NewConn` in iteration `i`. -/
def tryReconnectLoop (env : Env) (dials : Nat → Option Conn) :
    Nat → Nat → Nat → World → World
  | 0, _, _, w => w
  | n + 1, i, backoff, w =>
    let w := { w with trace := w.trace ++ [.sleep backoff] }
    let r := Connect env w (dials i)
    match r.2 with
    | none =>
      if !r.1.c.activity.IsEmpty then (SetActivity env r.1 r.1.c.activity).1 else r.1
    | some _ => tryReconnectLoop env dials n (i + 1) (backoff * 2) r.1

/-- Source `Client.tryReconnect`. -/
def tryReconnect (env : Env) (w : World) (dials : Nat → Option Conn) : World :=
  tryReconnectLoop env dials 5 0 1 w

/-- What one iteration of `readLoop` gets from `c.transport.Receive()` followed by
`codec.Unmarshal` (package `internal/codec`, taken as given): a receive error, a frame
whose body is not a document, or a frame with its decoded document. -/
inductive Received where
  | error
  | undecodable (op : OpCode)
  | frame (op : OpCode) (doc : GoMap)

/-- Source `Client.readLoop`, run on the frames that arrive; with no frame left the loop
stays blocked in `Receive`. -/
def readLoop (env : Env) (dials : Nat → Option Conn) : List Received → World → World
  | [], w => w
  | r :: rest, w =>
    match w.c.transport with
    | none => w
    | some _ =>
      match r with
      | .error =>
        let w := if w.c.onError then { w with trace := w.trace ++ [.onError] } else w
        if w.c.reconnect && !w.c.closed then tryReconnect env w dials else w
      | .undecodable _ => readLoop env dials rest w
      | .frame op doc => readLoop env dials rest (handleIncoming env w op doc)

/-- A call on the session: the methods of the client called by the application, and the
two things the receive loop does with what it receives. -/
inductive Call where
  | connect (dial : Option Conn)
  | close
  | setActivity (a : Activity)
  | incoming (op : OpCode) (doc : GoMap)
  | receiveError (dials : Nat → Option Conn)

/-- The session after one call. -/
def step (env : Env) (w : World) : Call → World
  | .connect dial => (Connect env w dial).1
  | .close => (Close w).1
  | .setActivity a => (SetActivity env w a).1
  | .incoming op doc => handleIncoming env w op doc
  | .receiveError dials => readLoop env dials [.error] w

/-- The session after a sequence of calls. -/
def run (env : Env) (w : World) (calls : List Call) : World :=
  calls.foldl (step env) w

/-! ## transport/ipc/conn_windows.go: receiving -/

/-- Errors of `Conn.Receive`: an error of the reader, or the `invalid payload length`
error with the length it reports. -/
inductive ReceiveError where
  | read (msg : String)
  | invalidPayloadLength (length : Int)
  deriving DecidableEq, Repr

/-- What the pipe hands to a `Read`: a chunk of bytes that has arrived, or an error. A
`Read` on the pipe returns bytes or an error, never both. -/
inductive PipeEvent where
  | chunk (bytes : List Byte)
  | error (msg : String)
  deriving DecidableEq, Repr

/-- One `Read(q)` on the pipe with `len(q) = limit`: at most `limit` bytes of the first
chunk, the rest of the chunk staying in the pipe. A pipe with nothing left reports `EOF`
(the peer has closed it). -/
def pipeRead (limit : Nat) : List PipeEvent → Except String (List Byte) × List PipeEvent
  | [] => (.error "EOF", [])
  | .error e :: rest => (.error e, rest)
  | .chunk d :: rest =>
    if d.length ≤ limit then (.ok d, rest)
    else (.ok (d.take limit), .chunk (d.drop limit) :: rest)

/-- The Go type `bufio.Reader` as `bufio.NewReader` makes it (field `reader` of `ipc.Conn`):
the buffered bytes not yet handed out, and the pipe behind the buffer of 4096 bytes. -/
structure Reader where
  buf : List Byte
  pipe : List PipeEvent

/-- The Go method `bufio.Reader.Read(p)`: the contents of `p` afterwards, or the error, and
the reader afterwards. A read into an empty `p` returns at once without touching the pipe;
buffered bytes are copied out; with nothing buffered there is one `Read` on the pipe, into
`p` itself when `p` is at least as large as the buffer, into the buffer otherwise. The
byte count that `Read` also returns is left out, `Receive` discards it. -/
def Reader.Read (r : Reader) (p : List Byte) : Except String (List Byte) × Reader :=
  if p.length = 0 then (.ok p, r)
  else if r.buf.length = 0 then
    if p.length ≥ 4096 then
      match pipeRead p.length r.pipe with
      | (.error e, pipe) => (.error e, { r with pipe := pipe })
      | (.ok d, pipe) => (.ok (copy p d), { r with pipe := pipe })
    else
      match pipeRead 4096 r.pipe with
      | (.error e, pipe) => (.error e, { r with pipe := pipe })
      | (.ok d, pipe) => (.ok (copy p d), { buf := d.drop p.length, pipe := pipe })
  else (.ok (copy p r.buf), { r with buf := r.buf.drop p.length })

/-- Source `Conn.Receive`, with `int` of 64 bits: the result, and the reader afterwards. -/
def Conn.Receive (r : Reader) : Except ReceiveError (OpCode × List Byte) × Reader :=
  match r.Read (List.replicate 8 0) with
  | (.error e, r1) => (.error (.read e), r1)
  | (.ok header, r1) =>
    let op : OpCode := int32 (uint32LE (header.getD 0 0) (header.getD 1 0) (header.getD 2 0)
      (header.getD 3 0) : Nat)
    let length : Int := (uint32LE (header.getD 4 0) (header.getD 5 0) (header.getD 6 0)
      (header.getD 7 0) : Nat)
    if length < 0 ∨ length > 10 * 1024 * 1024 then
      (.error (.invalidPayloadLength length), r1)
    else
      match r1.Read (List.replicate length.toNat 0) with
      | (.error e, r2) => (.error (.read e), r2)
      | (.ok payload, r2) => (.ok (op, payload), r2)

/-- The handshake document of `Connect`. -/
def handshakeDoc (appID : String) : GoMap := [("v", .int 1), ("client_id", .str appID)]

/-- The bytes of the handshake frame: what `EncodeFrameOp` returns for `OpHandshake` and
the handshake document. -/
def handshakeFrame (env : Env) (appID : String) : List Byte :=
  putInt32LE (int32 OpHandshake)
    ++ putInt32LE (int32 ((env.json (.map (handshakeDoc appID))).length : Int))
    ++ env.json (.map (handshakeDoc appID))

/-! ## Observations on a reconnection -/

/-- The part of an effect that matters for the reconnection schedule: a sleep with its
length, or a dial. -/
inductive Tick where
  | sleep (seconds : Nat)
  | dial
  deriving DecidableEq, Repr

/-- The sleeps and dials of a trace, in order. -/
def ticks : List Effect → List Tick
  | [] => []
  | .sleep s :: t => .sleep s :: ticks t
  | .dial _ :: t => .dial :: ticks t
  | _ :: t => ticks t

/-- The schedule of `k` failed attempts followed by a successful one, with first delay
`b`: every attempt is preceded by its delay, and the delay doubles. -/
def attemptSchedule : Nat → Nat → List Tick
  | 0, b => [.sleep b, .dial]
  | k + 1, b => .sleep b :: .dial :: attemptSchedule k (b * 2)

/-- The schedule of `k` failed attempts and nothing after them. -/
def failedSchedule : Nat → Nat → List Tick
  | 0, _ => []
  | k + 1, b => .sleep b :: .dial :: failedSchedule k (b * 2)

/-- The total sleep between each dial and the next one, given the sleep accumulated since
the last dial. -/
def delaysFrom : List Tick → Nat → List Nat
  | [], _ => []
  | .sleep s :: t, acc => delaysFrom t (acc + s)
  | .dial :: t, acc => acc :: delaysFrom t 0

/-- The delays between consecutive dials: what precedes the first dial does not count. -/
def delaysBetween : List Tick → List Nat
  | [] => []
  | .sleep _ :: t => delaysBetween t
  | .dial :: t => delaysFrom t 0

/-- Whether a `Connect` on a client without a transport handle fails, given the answer of
`ipc.NewConn`: the dial fails, or the write of the handshake fails. -/
def attemptFails : Option Conn → Bool
  | none => true
  | some pipe => pipe.writeFails

/-- A client that has seen READY on a connection, has published `exampleActivity`, and
holds no transport handle. -/
def lostWorld : World :=
  { c := { NewClient "app" with ready := true, activity := exampleActivity },
    uuids := 1, trace := [] }

/-- A pipe that works. -/
def goodPipe : Conn := ⟨false, false, false⟩

/-- An `ipc.NewConn` that fails 3 times and then succeeds. -/
def dialsAfter3 : Nat → Option Conn := fun i => if i < 3 then none else some goodPipe

/-- An activity with nothing but a timestamps block whose start and end are zero. -/
def zeroTimestampsActivity : Activity :=
  { Type_ := 0, State := "", Details := "", Timestamps := some ⟨0, 0⟩, Assets := none,
    Party := none, Secrets := [], Buttons := [] }

/-- A client that has seen READY on a connection, whose last activity is
`zeroTimestampsActivity`, and that holds no transport handle. -/
def zeroTimestampsWorld : World :=
  { c := { NewClient "app" with ready := true, activity := zeroTimestampsActivity },
    uuids := 0, trace := [] }

/-- An activity-join event as it arrives from the peer. -/
def joinDoc : GoMap :=
  [("cmd", .str "DISPATCH"), ("evt", .str "ACTIVITY_JOIN"),
    ("data", .map [("secret", .str "s3cret")])]

/-- A connected, ready client with every observer registered. -/
def observedWorld : World :=
  { c := { AppID := "app", transport := some goodPipe, verbose := false, onReady := true,
           onError := true, onClose := true, onActivityJoin := true,
           onActivitySpectate := true, onActivityJoinRequest := true,
           pendingActivity := none, ready := true, activity := idleActivity,
           reconnect := true, closed := false },
    uuids := 0, trace := [] }

/-- The session after a `time.Sleep` of `b` seconds. -/
def sleepThen (w : World) (b : Nat) : World := { w with trace := w.trace ++ [Effect.sleep b] }

/-- The session after `k` iterations of the loop of `tryReconnect` that did not return,
starting with loop counter `i` and delay `b`: in each iteration a sleep of the current
delay, then `Connect`, then the delay doubles. -/
def afterAttempts (env : Env) (dials : Nat → Option Conn) : Nat → Nat → Nat → World → World
  | 0, _, _, w => w
  | k + 1, i, b, w =>
    afterAttempts env dials k (i + 1) (b * 2) (Connect env (sleepThen w b) (dials i)).1

/-- The `Connect` call of iteration `j` (counted from 0) of the loop of `tryReconnect`
started with loop counter `i` and delay `b`, when the iterations before it did not return:
the session it leaves and its error. -/
def attemptResult (env : Env) (dials : Nat → Option Conn) (j i b : Nat) (w : World) :
    World × Option ClientError :=
  Connect env (sleepThen (afterAttempts env dials j i b w) (b * 2 ^ j)) (dials (i + j))

/-- The success branch of the loop of `tryReconnect`: the last activity is republished
through `SetActivity` unless it is empty. -/
def republish (env : Env) (w : World) : World :=
  if !w.c.activity.IsEmpty then (SetActivity env w w.c.activity).1 else w

/-- The lengths of the sleeps of a trace, in order. -/
def sleepsOf : List Effect → List Nat
  | [] => []
  | .sleep b :: t => b :: sleepsOf t
  | _ :: t => sleepsOf t

/-- Source `Client.tryReconnect`, the `for` loop, together with the calls that the
application makes on the session while the loop sleeps: `during i` are the calls made
during the sleep of iteration `i` (the loop holds no lock while it sleeps, and each method
of the client runs under the lock of the session). -/
def tryReconnectLoopDuring (env : Env) (dials : Nat → Option Conn)
    (during : Nat → List Call) : Nat → Nat → Nat → World → World
  | 0, _, _, w => w
  | n + 1, i, backoff, w =>
    let w := { w with trace := w.trace ++ [Effect.sleep backoff] }
    let w := run env w (during i)
    let r := Connect env w (dials i)
    match r.2 with
    | none =>
      if !r.1.c.activity.IsEmpty then (SetActivity env r.1 r.1.c.activity).1 else r.1
    | some _ => tryReconnectLoopDuring env dials during n (i + 1) (backoff * 2) r.1

/-- Source `Client.readLoop`, with the calls that the application makes while
`tryReconnect` sleeps. -/
def readLoopDuring (env : Env) (dials : Nat → Option Conn) (during : Nat → List Call) :
    List Received → World → World
  | [], w => w
  | r :: rest, w =>
    match w.c.transport with
    | none => w
    | some _ =>
      match r with
      | .error =>
        let w := if w.c.onError then { w with trace := w.trace ++ [Effect.onError] } else w
        if w.c.reconnect && !w.c.closed then tryReconnectLoopDuring env dials during 5 0 1 w
        else w
      | .undecodable _ => readLoopDuring env dials during rest w
      | .frame op doc => readLoopDuring env dials during rest (handleIncoming env w op doc)

/-- A new client, before any call. -/
def freshWorld : World := { c := NewClient "app", uuids := 0, trace := [] }

/-- The session after the application has connected, the peer has sent READY and the
application has published `exampleActivity`. -/
def publishedWorld : World :=
  run stateEnv freshWorld
    [.connect (some goodPipe), .incoming OpFrame readyDoc, .setActivity exampleActivity]

/-- The session of `publishedWorld` after the application has called `Close`. -/
def closedWorld : World :=
  run stateEnv freshWorld
    [.connect (some goodPipe), .incoming OpFrame readyDoc, .setActivity exampleActivity,
      .close]

/-- The application calls `Close` during the first sleep of `tryReconnect` and makes no
other call. -/
def closeInFirstSleep : Nat → List Call := fun i => if i = 0 then [.close] else []

/-! ## Guarded assignments

The two shapes of conditional assignment in `sendSetActivity`, named so that the document
can be analysed one assignment at a time. -/

/-- A guarded assignment `if c { m[k] = v }`. -/
def setIf (c : Prop) [Decidable c] (k : String) (v : Any) (m : GoMap) : GoMap :=
  if c then mapSet m k v else m

/-- A guarded assignment from a pointer: `if o != nil && c(*o) { m[k] = v(*o) }`. -/
def setOpt {α : Type} (o : Option α) (c : α → Prop) [DecidablePred c] (k : String)
    (v : α → Any) (m : GoMap) : GoMap :=
  match o with
  | some x => if c x then mapSet m k (v x) else m
  | none => m

/-! ## Lemmas on the integer encoding -/

theorem int32_of_isInt32 {n : Int} (h : isInt32 n) : int32 n = n := by
  unfold isInt32 at h
  unfold int32
  omega

theorem isInt32_int32 (n : Int) : isInt32 (int32 n) := by
  unfold isInt32 int32
  omega

theorem int32_natCast_of_lt {n : Nat} (h : n < 2147483648) : int32 (n : Int) = n := by
  unfold int32
  omega

theorem int32_natCast_eq_iff (n : Nat) : int32 (n : Int) = n ↔ n < 2147483648 := by
  unfold int32
  omega

theorem putInt32LE_length (v : Int) : (putInt32LE v).length = 4 := rfl

theorem uint32LE_byteAt (u : Nat) (h : u < 4294967296) :
    uint32LE (byteAt u 0) (byteAt u 1) (byteAt u 2) (byteAt u 3) = u := by
  simp only [uint32LE, byteAt]
  norm_num
  omega

theorem binaryLittleEndianToInt32_putInt32LE (v : Int) (rest : List Byte) :
    binaryLittleEndianToInt32 (putInt32LE v ++ rest) = int32 v := by
  have hu : (v % 4294967296).toNat < 4294967296 := by omega
  have h := uint32LE_byteAt (v % 4294967296).toNat hu
  simp only [putInt32LE, binaryLittleEndianToInt32, List.cons_append, List.nil_append, h]
  unfold int32
  omega

theorem copy_replicate (n : Nat) (src : List Byte) (h : src.length = n) :
    copy (List.replicate n 0) src = src := by
  unfold copy
  simp [h]

theorem slice_of_le (b : List Byte) (lo hi : Nat) (h1 : lo ≤ hi) (h2 : hi ≤ b.length) :
    slice b (lo : Int) (hi : Int) = some ((b.drop lo).take (hi - lo)) := by
  unfold slice
  have hb : (0 : Int) ≤ (lo : Int) ∧ (lo : Int) ≤ (hi : Int) ∧ (hi : Int) ≤ (b.length : Int) := by
    omega
  rw [if_pos hb]
  have e1 : ((lo : Int)).toNat = lo := by omega
  have e2 : ((hi : Int) - (lo : Int)).toNat = hi - lo := by omega
  rw [e1, e2]

/-- What `DecodeFrameOp` returns on a buffer of at least 8 bytes, in terms of the two header
fields and the bytes after the header. -/
theorem DecodeFrameOp_of_le (b : List Byte) (h : 8 ≤ b.length) :
    DecodeFrameOp b =
      if ((b.drop 8).length : Int) = binaryLittleEndianToInt32 ((b.drop 4).take 4) then
        .ok (binaryLittleEndianToInt32 (b.take 4), b.drop 8)
      else .err (.lengthMismatch (binaryLittleEndianToInt32 ((b.drop 4).take 4))
        ((b.drop 8).length : Int)) := by
  unfold DecodeFrameOp
  have h8 : ¬ b.length < 8 := by omega
  have s0 : slice b 0 4 = some (b.take 4) := by
    have := slice_of_le b 0 4 (by omega) (by omega)
    simpa using this
  have s1 : slice b 4 8 = some ((b.drop 4).take 4) := by
    have := slice_of_le b 4 8 (by omega) (by omega)
    simpa using this
  have s2 : slice b 8 (b.length : Int) = some (b.drop 8) := by
    have := slice_of_le b 8 b.length h (le_refl _)
    rw [← List.length_drop, List.take_length] at this
    simpa using this
  simp only [h8, if_false, s0, s1, s2]
  generalize binaryLittleEndianToInt32 ((b.drop 4).take 4) = L
  by_cases hl : ((b.drop 8).length : Int) = L
  · subst hl
    have hnn : ¬ ((b.drop 8).length : Int) < 0 := by omega
    have hs : slice b 8 (8 + ((b.drop 8).length : Int)) = some (b.drop 8) := by
      have e : (8 : Int) + ((b.drop 8).length : Int) = (b.length : Int) := by
        simp only [List.length_drop]; omega
      rw [e]
      exact s2
    rw [if_neg (by simp), if_neg hnn, hs, if_pos rfl]
    simp only [Int.toNat_ofNat]
    rw [copy_replicate _ _ rfl]
  · rw [if_pos hl, if_neg hl]

/-- Decoding a header followed by `j`. -/
theorem DecodeFrameOp_header (v w : Int) (j : List Byte) :
    DecodeFrameOp (putInt32LE v ++ putInt32LE w ++ j) =
      if (j.length : Int) = int32 w then .ok (int32 v, j)
      else .err (.lengthMismatch (int32 w) (j.length : Int)) := by
  have hlen : 8 ≤ (putInt32LE v ++ putInt32LE w ++ j).length := by
    simp only [List.length_append, putInt32LE_length]; omega
  rw [DecodeFrameOp_of_le _ hlen]
  have d8 : (putInt32LE v ++ putInt32LE w ++ j).drop 8 = j := by
    have e : putInt32LE v ++ putInt32LE w ++ j = (putInt32LE v ++ putInt32LE w) ++ j := rfl
    rw [e, List.drop_append_eq_append_drop]
    simp [putInt32LE_length, putInt32LE]
  have t4 : (putInt32LE v ++ putInt32LE w ++ j).take 4 = putInt32LE v ++ [] := by
    rw [List.append_assoc, List.take_append_eq_append_take]
    simp [putInt32LE_length]
  have d4 : ((putInt32LE v ++ putInt32LE w ++ j).drop 4).take 4 = putInt32LE w ++ [] := by
    rw [List.append_assoc, List.drop_append_eq_append_drop]
    simp [putInt32LE_length, List.take_append_eq_append_take]
  rw [d8, t4, d4, binaryLittleEndianToInt32_putInt32LE, binaryLittleEndianToInt32_putInt32LE]

theorem EncodeFrameOp_ok {α : Type} (marshal : α → Except String (List Byte)) (op : OpCode)
    (body : α) (j : List Byte) (hm : marshal body = .ok j) :
    EncodeFrameOp marshal op body
      = .ok (putInt32LE (int32 op) ++ putInt32LE (int32 (j.length : Int)) ++ j) := by
  unfold EncodeFrameOp
  rw [hm]

theorem int32_int32 (n : Int) : int32 (int32 n) = int32 n :=
  int32_of_isInt32 (isInt32_int32 n)

/-- Decoding an encoded frame: success exactly when `len(j)` survives the conversion to
`int32`. -/
theorem DecodeFrameOp_encoded (op : OpCode) (j : List Byte) :
    DecodeFrameOp (putInt32LE (int32 op) ++ putInt32LE (int32 (j.length : Int)) ++ j) =
      if (j.length : Int) = int32 (j.length : Int) then .ok (int32 op, j)
      else .err (.lengthMismatch (int32 (j.length : Int)) (j.length : Int)) := by
  rw [DecodeFrameOp_header, int32_int32, int32_int32]

/-! ## The frame codec: claims C1 to C4 -/

/-- C1, refuted as stated: for the operation code 1 and a body whose serialization is
`2^31` bytes long, `EncodeFrameOp` succeeds, its header declares the length `-2^31`, and
`DecodeFrameOp` of the encoded frame fails with a length mismatch instead of returning
the body. -/
theorem roundtrip_fails_at_2GiB :
    EncodeFrameOp (fun r => Except.ok r) OpFrame body2GiB
        = .ok (putInt32LE 1 ++ putInt32LE (-2147483648) ++ body2GiB)
      ∧ DecodeFrameOp (putInt32LE 1 ++ putInt32LE (-2147483648) ++ body2GiB)
        = .err (.lengthMismatch (-2147483648) 2147483648) := by
  have hl : (body2GiB.length : Int) = 2147483648 := by
    unfold body2GiB
    rw [List.length_replicate]
    rfl
  have h32 : int32 (body2GiB.length : Int) = -2147483648 := by
    rw [hl]
    decide
  have hop : int32 OpFrame = 1 := by decide
  have hne : ¬ ((body2GiB.length : Int) = int32 (body2GiB.length : Int)) := by
    rw [h32, hl]
    decide
  have he := EncodeFrameOp_ok (fun r => Except.ok r) OpFrame body2GiB body2GiB rfl
  have hd := DecodeFrameOp_encoded OpFrame body2GiB
  rw [if_neg hne] at hd
  rw [h32, hop] at he hd
  rw [hl] at hd
  exact ⟨he, hd⟩

/-- C1, amended: for every 32-bit operation code `op` and every payload whose serialization
`j` is shorter than `2^31` bytes, `EncodeFrameOp` succeeds and `DecodeFrameOp` of its
result succeeds and returns `(op, j)`. -/
theorem DecodeFrameOp_EncodeFrameOp {α : Type} (marshal : α → Except String (List Byte))
    (op : OpCode) (body : α) (j : List Byte) (hop : isInt32 op) (hm : marshal body = .ok j)
    (hj : j.length < 2147483648) :
    ∃ bytes, EncodeFrameOp marshal op body = .ok bytes ∧ DecodeFrameOp bytes = .ok (op, j) := by
  refine ⟨_, EncodeFrameOp_ok marshal op body j hm, ?_⟩
  rw [DecodeFrameOp_encoded, if_pos (int32_natCast_of_lt hj).symm, int32_of_isInt32 hop]

theorem DecodeFrameOp_EncodeFrameOp_witness :
    ∃ bytes, EncodeFrameOp (fun r => Except.ok r) OpFrame [123, 125] = .ok bytes
      ∧ DecodeFrameOp bytes = .ok (OpFrame, [123, 125]) :=
  DecodeFrameOp_EncodeFrameOp (fun r => Except.ok r) OpFrame [123, 125] [123, 125]
    (by decide) rfl (by decide)

theorem encoded_take4 (v w : Int) (j : List Byte) :
    (putInt32LE v ++ putInt32LE w ++ j).take 4 = putInt32LE v := by
  rw [List.append_assoc, List.take_append_eq_append_take]
  simp [putInt32LE_length]

theorem encoded_drop4_take4 (v w : Int) (j : List Byte) :
    ((putInt32LE v ++ putInt32LE w ++ j).drop 4).take 4 = putInt32LE w := by
  rw [List.append_assoc, List.drop_append_eq_append_drop]
  simp [putInt32LE_length, List.take_append_eq_append_take]

theorem encoded_drop8 (v w : Int) (j : List Byte) :
    (putInt32LE v ++ putInt32LE w ++ j).drop 8 = j := by
  have e : putInt32LE v ++ putInt32LE w ++ j = (putInt32LE v ++ putInt32LE w) ++ j := rfl
  rw [e, List.drop_append_eq_append_drop]
  simp [putInt32LE_length, putInt32LE]

theorem binaryLittleEndianToInt32_putInt32LE_nil (v : Int) :
    binaryLittleEndianToInt32 (putInt32LE v) = int32 v := by
  have h := binaryLittleEndianToInt32_putInt32LE v []
  rwa [List.append_nil] at h

/-- C2, refuted as stated: for a body whose serialization is `2^31` bytes long the frame
that `EncodeFrameOp` returns carries the bytes `00 00 00 80` in positions 4..7, which read
as the signed length `-2^31`, while `2^31` bytes follow the header. -/
theorem header_length_wrong_at_2GiB :
    ∃ bytes, EncodeFrameOp (fun r => Except.ok r) OpFrame body2GiB = .ok bytes
      ∧ (bytes.drop 4).take 4 = [0, 0, 0, 128]
      ∧ binaryLittleEndianToInt32 ((bytes.drop 4).take 4) = -2147483648
      ∧ ((bytes.drop 8).length : Int) = 2147483648 := by
  have hl : (body2GiB.length : Int) = 2147483648 := by
    unfold body2GiB
    rw [List.length_replicate]
    rfl
  have h32 : int32 (body2GiB.length : Int) = -2147483648 := by
    rw [hl]
    decide
  refine ⟨_, EncodeFrameOp_ok (fun r => Except.ok r) OpFrame body2GiB body2GiB rfl, ?_, ?_, ?_⟩
  · rw [encoded_drop4_take4, h32]
    decide
  · rw [encoded_drop4_take4, h32]
    decide
  · rw [encoded_drop8, hl]

/-- C2, amended: for every 32-bit `op` and every payload with serialization `j`,
`EncodeFrameOp` returns exactly `8 + len(j)` bytes; bytes 0..3 are `op` in little-endian
two's complement (and read back as `op`), bytes 4..7 are `int32(len(j))` in little-endian
two's complement, bytes 8.. are `j`; and when `len(j) < 2^31` the length read from the
header equals the number of body bytes that follow. -/
theorem EncodeFrameOp_layout {α : Type} (marshal : α → Except String (List Byte))
    (op : OpCode) (body : α) (j : List Byte) (hop : isInt32 op) (hm : marshal body = .ok j) :
    ∃ bytes, EncodeFrameOp marshal op body = .ok bytes
      ∧ bytes.length = 8 + j.length
      ∧ bytes.take 4 = putInt32LE op
      ∧ binaryLittleEndianToInt32 (bytes.take 4) = op
      ∧ (bytes.drop 4).take 4 = putInt32LE (int32 (j.length : Int))
      ∧ bytes.drop 8 = j
      ∧ (j.length < 2147483648 →
          binaryLittleEndianToInt32 ((bytes.drop 4).take 4) = ((bytes.drop 8).length : Int)) := by
  refine ⟨_, EncodeFrameOp_ok marshal op body j hm, ?_, ?_, ?_, ?_, ?_, ?_⟩
  · simp only [List.length_append, putInt32LE_length]
  · rw [encoded_take4, int32_of_isInt32 hop]
  · rw [encoded_take4, binaryLittleEndianToInt32_putInt32LE_nil, int32_int32,
      int32_of_isInt32 hop]
  · rw [encoded_drop4_take4]
  · rw [encoded_drop8]
  · intro hj
    rw [encoded_drop4_take4, encoded_drop8, binaryLittleEndianToInt32_putInt32LE_nil,
      int32_int32, int32_natCast_of_lt hj]

theorem EncodeFrameOp_layout_witness :
    ∃ bytes, EncodeFrameOp (fun r => Except.ok r) OpFrame [123, 125] = .ok bytes
      ∧ bytes.length = 8 + 2
      ∧ bytes.take 4 = putInt32LE 1
      ∧ binaryLittleEndianToInt32 (bytes.take 4) = 1
      ∧ (bytes.drop 4).take 4 = putInt32LE (int32 2)
      ∧ bytes.drop 8 = [123, 125]
      ∧ ((2 : Nat) < 2147483648 →
          binaryLittleEndianToInt32 ((bytes.drop 4).take 4) = ((bytes.drop 8).length : Int)) :=
  EncodeFrameOp_layout (fun r => Except.ok r) OpFrame [123, 125] [123, 125] (by decide) rfl

/-- What `DecodeFrameOp` returns on a buffer with a full header. -/
theorem DecodeFrameOp_cons8 (a0 a1 a2 a3 l0 l1 l2 l3 : Byte) (body : List Byte) :
    DecodeFrameOp (a0 :: a1 :: a2 :: a3 :: l0 :: l1 :: l2 :: l3 :: body) =
      if (body.length : Int) = int32 (uint32LE l0 l1 l2 l3 : Nat) then
        .ok (int32 (uint32LE a0 a1 a2 a3 : Nat), body)
      else .err (.lengthMismatch (int32 (uint32LE l0 l1 l2 l3 : Nat)) (body.length : Int)) := by
  have hlen : 8 ≤ (a0 :: a1 :: a2 :: a3 :: l0 :: l1 :: l2 :: l3 :: body).length := by
    simp only [List.length_cons]; omega
  rw [DecodeFrameOp_of_le _ hlen]
  simp only [List.drop_succ_cons, List.drop_zero, List.take_succ_cons, List.take_zero,
    binaryLittleEndianToInt32]

theorem DecodeFrameOp_cons8_failed (a0 a1 a2 a3 l0 l1 l2 l3 : Byte) (body : List Byte) :
    (DecodeFrameOp (a0 :: a1 :: a2 :: a3 :: l0 :: l1 :: l2 :: l3 :: body)).failed = true ↔
      (body.length : Int) ≠ int32 (uint32LE l0 l1 l2 l3 : Nat) := by
  rw [DecodeFrameOp_cons8]
  by_cases h : (body.length : Int) = int32 (uint32LE l0 l1 l2 l3 : Nat)
  · rw [if_pos h]
    simp [GoResult.failed, h]
  · rw [if_neg h]
    simp [GoResult.failed, h]

/-- C3: `DecodeFrameOp` fails on every buffer shorter than 8 bytes; on a buffer with an
8-byte header it fails if and only if the number of bytes after the header differs from the
signed little-endian length in header bytes 4..7, and when it does not fail it returns the
operation code read from bytes 0..3 and all the bytes after the header. -/
theorem DecodeFrameOp_strict (b : List Byte) :
    (b.length < 8 → (DecodeFrameOp b).failed = true) ∧
    ∀ (a0 a1 a2 a3 l0 l1 l2 l3 : Byte) (body : List Byte),
      b = a0 :: a1 :: a2 :: a3 :: l0 :: l1 :: l2 :: l3 :: body →
      ((DecodeFrameOp b).failed = true ↔
          (body.length : Int) ≠ int32 (uint32LE l0 l1 l2 l3 : Nat)) ∧
      ((DecodeFrameOp b).failed = false →
          DecodeFrameOp b = .ok (int32 (uint32LE a0 a1 a2 a3 : Nat), body)) := by
  constructor
  · intro h
    unfold DecodeFrameOp
    rw [if_pos h]
    rfl
  · intro a0 a1 a2 a3 l0 l1 l2 l3 body hb
    subst hb
    refine ⟨DecodeFrameOp_cons8_failed a0 a1 a2 a3 l0 l1 l2 l3 body, ?_⟩
    rw [DecodeFrameOp_cons8]
    by_cases h : (body.length : Int) = int32 (uint32LE l0 l1 l2 l3 : Nat)
    · rw [if_pos h]
      intro _
      rfl
    · rw [if_neg h]
      simp [GoResult.failed]

theorem DecodeFrameOp_strict_witness :
    (DecodeFrameOp [1, 2, 3]).failed = true
      ∧ DecodeFrameOp [1, 0, 0, 0, 2, 0, 0, 0, 123, 125] = .ok (1, [123, 125]) :=
  ⟨(DecodeFrameOp_strict [1, 2, 3]).1 (by decide),
    ((DecodeFrameOp_strict [1, 0, 0, 0, 2, 0, 0, 0, 123, 125]).2 1 0 0 0 2 0 0 0 [123, 125]
      rfl).2 (by decide)⟩

/-- C4, refuted as stated: a buffer whose header declares `10 MiB + 1` bytes, followed by
exactly that many bytes, is accepted by `DecodeFrameOp`. -/
theorem DecodeFrameOp_accepts_over_10MiB :
    DecodeFrameOp ([1, 0, 0, 0, 1, 0, 160, 0] ++ List.replicate 10485761 0)
      = .ok (1, List.replicate 10485761 0)
    ∧ int32 (uint32LE 1 0 160 0 : Nat) = 10 * 1024 * 1024 + 1 := by
  constructor
  · have hh : ([1, 0, 0, 0, 1, 0, 160, 0] : List Byte) = putInt32LE 1 ++ putInt32LE 10485761 := by
      decide
    have hl : ((List.replicate 10485761 (0 : Byte)).length : Int) = int32 10485761 := by
      rw [List.length_replicate]
      decide
    rw [hh, DecodeFrameOp_header, if_pos hl]
    have h1 : int32 1 = 1 := by decide
    rw [h1]
  · decide

/-- C4, amended: `DecodeFrameOp` rejects every buffer whose header declares a negative body
length; a header declaring more than 10 MiB is rejected if and only if the number of bytes
after the header differs from the declared length. -/
theorem DecodeFrameOp_length_bound (a0 a1 a2 a3 l0 l1 l2 l3 : Byte) (body : List Byte) :
    (int32 (uint32LE l0 l1 l2 l3 : Nat) < 0 →
      (DecodeFrameOp (a0 :: a1 :: a2 :: a3 :: l0 :: l1 :: l2 :: l3 :: body)).failed = true) ∧
    (10 * 1024 * 1024 < int32 (uint32LE l0 l1 l2 l3 : Nat) →
      ((DecodeFrameOp (a0 :: a1 :: a2 :: a3 :: l0 :: l1 :: l2 :: l3 :: body)).failed = true ↔
        (body.length : Int) ≠ int32 (uint32LE l0 l1 l2 l3 : Nat))) := by
  have h := DecodeFrameOp_cons8_failed a0 a1 a2 a3 l0 l1 l2 l3 body
  constructor
  · intro hneg
    rw [h]
    omega
  · intro _
    exact h

theorem DecodeFrameOp_length_bound_witness :
    (DecodeFrameOp [1, 0, 0, 0, 255, 255, 255, 255]).failed = true
      ∧ ((DecodeFrameOp [1, 0, 0, 0, 1, 0, 160, 0, 7]).failed = true ↔
          (([7] : List Byte).length : Int) ≠ int32 (uint32LE 1 0 160 0 : Nat)) :=
  ⟨(DecodeFrameOp_length_bound 1 0 0 0 255 255 255 255 []).1 (by decide),
    (DecodeFrameOp_length_bound 1 0 0 0 1 0 160 0 [7]).2 (by decide)⟩

/-! ## Lemmas on maps -/

theorem mapGet_mapSet (m : GoMap) (k : String) (v : Any) (k' : String) :
    mapGet (mapSet m k v) k' = if k = k' then some v else mapGet m k' := by
  induction m with
  | nil => simp [mapSet, mapGet]
  | cons e m ih =>
    unfold mapSet
    by_cases h : e.1 = k
    · rw [if_pos h]
      by_cases h2 : k = k'
      · simp [mapGet, h2]
      · have h3 : ¬ e.1 = k' := by rw [h]; exact h2
        simp [mapGet, h2, h3]
    · rw [if_neg h]
      by_cases h3 : e.1 = k'
      · have h2 : ¬ k = k' := by rw [← h3]; exact fun h' => h h'.symm
        simp [mapGet, h2, h3]
      · simp only [mapGet, if_neg h3, ih]

theorem mem_mapKeys_mapSet (m : GoMap) (k : String) (v : Any) (k' : String) :
    k' ∈ mapKeys (mapSet m k v) ↔ k' = k ∨ k' ∈ mapKeys m := by
  induction m with
  | nil => simp [mapSet, mapKeys]
  | cons e m ih =>
    unfold mapSet
    by_cases h : e.1 = k
    · rw [if_pos h]
      simp only [mapKeys, List.map_cons, List.mem_cons, h]
      tauto
    · rw [if_neg h]
      simp only [mapKeys, List.map_cons, List.mem_cons] at ih ⊢
      rw [ih]
      tauto

theorem nodup_mapKeys_mapSet (m : GoMap) (k : String) (v : Any)
    (hm : (mapKeys m).Nodup) : (mapKeys (mapSet m k v)).Nodup := by
  induction m with
  | nil => simp [mapSet, mapKeys]
  | cons e m ih =>
    unfold mapSet
    by_cases h : e.1 = k
    · rw [if_pos h]
      simp only [mapKeys, List.map_cons, List.nodup_cons] at hm ⊢
      rw [← h]
      exact hm
    · rw [if_neg h]
      simp only [mapKeys, List.map_cons, List.nodup_cons] at hm ⊢
      refine ⟨?_, ih hm.2⟩
      intro hmem
      have := (mem_mapKeys_mapSet m k v e.1).1 hmem
      rcases this with h1 | h1
      · exact h h1
      · exact hm.1 h1

/-! ## Lemmas on the button loop -/

theorem validButtonsLoop_eq (bs acc : List Button) (h : acc.length < 2) :
    validButtonsLoop bs acc = (acc ++ (bs.map trimButton).filter allowedButton).take 2 := by
  induction bs generalizing acc with
  | nil =>
    simp only [validButtonsLoop, List.map_nil, List.filter_nil, List.append_nil]
    rw [List.take_of_length_le (by omega)]
  | cons b rest ih =>
    unfold validButtonsLoop
    by_cases hv : allowedButton (trimButton b) = true
    · have hc : (TrimSpace b.Label == "" || TrimSpace b.Url == ""
          || !(HasPrefix (TrimSpace b.Url) "http://" || HasPrefix (TrimSpace b.Url) "https://"))
          = false := by
        simp only [allowedButton, trimButton, Bool.and_eq_true, decide_eq_true_eq] at hv
        simp [hv.1.1, hv.1.2, hv.2]
      simp only [hc, Bool.false_eq_true, if_false]
      have hf : ((b :: rest).map trimButton).filter allowedButton
          = trimButton b :: (rest.map trimButton).filter allowedButton := by
        simp [List.filter_cons, hv]
      rw [hf]
      have htb : (Button.mk (TrimSpace b.Label) (TrimSpace b.Url)) = trimButton b := rfl
      rw [htb]
      by_cases hl : (acc ++ [trimButton b]).length = 2
      · simp only [hl, beq_self_eq_true, if_true]
        have e : acc ++ trimButton b :: (rest.map trimButton).filter allowedButton
            = (acc ++ [trimButton b]) ++ (rest.map trimButton).filter allowedButton := by
          simp
        rw [e, List.take_append_of_le_length (by omega), List.take_of_length_le (by omega)]
      · have hl' : ((acc ++ [trimButton b]).length == 2) = false := by simpa using hl
        simp only [hl', Bool.false_eq_true, if_false]
        rw [ih _ (by simp only [List.length_append, List.length_singleton] at hl ⊢; omega)]
        simp
    · have hc : (TrimSpace b.Label == "" || TrimSpace b.Url == ""
          || !(HasPrefix (TrimSpace b.Url) "http://" || HasPrefix (TrimSpace b.Url) "https://"))
          = true := by
        simp only [allowedButton, trimButton, Bool.and_eq_true, decide_eq_true_eq,
          Bool.or_eq_true] at hv
        by_cases h1 : TrimSpace b.Label = ""
        · simp [h1]
        · by_cases h2 : TrimSpace b.Url = ""
          · simp [h2]
          · have h3 : ¬ (HasPrefix (TrimSpace b.Url) "http://" = true
                ∨ HasPrefix (TrimSpace b.Url) "https://" = true) := fun h3 => hv ⟨⟨h1, h2⟩, h3⟩
            simp only [not_or, Bool.not_eq_true] at h3
            simp [h3.1, h3.2]
      simp only [hc, if_true]
      rw [ih acc h]
      have hf : ((b :: rest).map trimButton).filter allowedButton
          = (rest.map trimButton).filter allowedButton := by
        simp [List.filter_cons, hv]
      rw [hf]

theorem validButtonsLoop_nil_eq (bs : List Button) :
    validButtonsLoop bs [] = specButtons bs := by
  rw [validButtonsLoop_eq bs [] (by decide)]
  rfl

theorem payloadAct_eq (a : Activity) :
    payloadAct a =
      setOpt a.Assets (fun _ => True) "assets" (fun x => .map (assetsDoc a x))
      (setIf (a.Buttons.length > 0) "buttons" (.buttons a.Buttons)
      (setIf (a.Secrets.length > 0) "secrets" (.secrets a.Secrets)
      (setOpt a.Party (fun p => p.Size.length = 2) "party" (fun p => .party p)
      (setOpt a.Timestamps (fun t => t.Start ≠ 0 ∨ t.End ≠ 0) "timestamps" (fun t => .timestamps t)
      (setIf (a.Details ≠ "") "details" (.str a.Details)
      (setIf (a.State ≠ "") "state" (.str a.State)
      (mapSet [] "type" (.int a.Type_)))))))) := by
  obtain ⟨ty, st, de, ts, as, pa, se, bu⟩ := a
  cases ts <;> cases as <;> cases pa <;> rfl

theorem mapGet_setIf (c : Prop) [Decidable c] (k : String) (v : Any) (m : GoMap) (k' : String) :
    mapGet (setIf c k v m) k' = if c ∧ k = k' then some v else mapGet m k' := by
  unfold setIf
  by_cases h : c
  · by_cases h2 : k = k' <;> simp [h, h2, mapGet_mapSet]
  · simp [h]

theorem mapGet_setOpt {α : Type} (o : Option α) (c : α → Prop) [DecidablePred c] (k : String)
    (v : α → Any) (m : GoMap) (k' : String) :
    mapGet (setOpt o c k v m) k'
      = match o with
        | some x => if c x ∧ k = k' then some (v x) else mapGet m k'
        | none => mapGet m k' := by
  unfold setOpt
  cases o with
  | none => rfl
  | some x =>
    by_cases h : c x
    · by_cases h2 : k = k' <;> simp [h, h2, mapGet_mapSet]
    · simp [h]

theorem mem_mapKeys_setIf (c : Prop) [Decidable c] (k : String) (v : Any) (m : GoMap)
    (k' : String) : k' ∈ mapKeys (setIf c k v m) ↔ (c ∧ k' = k) ∨ k' ∈ mapKeys m := by
  unfold setIf
  by_cases h : c
  · simp [h, mem_mapKeys_mapSet]
  · simp [h]

theorem mem_mapKeys_setOpt {α : Type} (o : Option α) (c : α → Prop) [DecidablePred c]
    (k : String) (v : α → Any) (m : GoMap) (k' : String) :
    k' ∈ mapKeys (setOpt o c k v m) ↔ ((∃ x, o = some x ∧ c x) ∧ k' = k) ∨ k' ∈ mapKeys m := by
  unfold setOpt
  cases o with
  | none => simp
  | some x =>
    by_cases h : c x
    · simp [h, mem_mapKeys_mapSet]
    · simp [h]

theorem nodup_mapKeys_setIf (c : Prop) [Decidable c] (k : String) (v : Any) (m : GoMap)
    (hm : (mapKeys m).Nodup) : (mapKeys (setIf c k v m)).Nodup := by
  unfold setIf
  by_cases h : c
  · simp only [h, if_true]; exact nodup_mapKeys_mapSet m k v hm
  · simp only [h, if_false]; exact hm

theorem nodup_mapKeys_setOpt {α : Type} (o : Option α) (c : α → Prop) [DecidablePred c]
    (k : String) (v : α → Any) (m : GoMap) (hm : (mapKeys m).Nodup) :
    (mapKeys (setOpt o c k v m)).Nodup := by
  unfold setOpt
  cases o with
  | none => exact hm
  | some x =>
    by_cases h : c x
    · simp only [h, if_true]; exact nodup_mapKeys_mapSet m k (v x) hm
    · simp only [h, if_false]; exact hm

theorem not_mem_mapKeys_nil (k : String) : ¬ k ∈ mapKeys [] := by
  simp [mapKeys]

theorem mapGet_payloadAct_buttons (a : Activity) :
    mapGet (payloadAct a) "buttons"
      = if a.Buttons = [] then none else some (.buttons a.Buttons) := by
  rw [payloadAct_eq]
  simp only [mapGet_setOpt, mapGet_setIf, mapGet_mapSet, mapGet]
  cases a.Assets <;> cases a.Timestamps <;> cases a.Party <;>
    simp [List.length_pos]

theorem mem_mapKeys_payloadAct (a : Activity) (k : String) :
    k ∈ mapKeys (payloadAct a) ↔
      k = "type" ∨ (k = "state" ∧ a.State ≠ "") ∨ (k = "details" ∧ a.Details ≠ "")
      ∨ (k = "timestamps" ∧ ∃ t, a.Timestamps = some t ∧ (t.Start ≠ 0 ∨ t.End ≠ 0))
      ∨ (k = "party" ∧ ∃ p, a.Party = some p ∧ p.Size.length = 2)
      ∨ (k = "secrets" ∧ a.Secrets ≠ [])
      ∨ (k = "buttons" ∧ a.Buttons ≠ [])
      ∨ (k = "assets" ∧ ∃ x, a.Assets = some x) := by
  rw [payloadAct_eq]
  simp only [mem_mapKeys_setOpt, mem_mapKeys_setIf, mem_mapKeys_mapSet, not_mem_mapKeys_nil,
    or_false, List.length_pos, gt_iff_lt, and_true]
  constructor
  · rintro (⟨h1, h2⟩ | ⟨h1, h2⟩ | ⟨h1, h2⟩ | ⟨h1, h2⟩ | ⟨h1, h2⟩ | ⟨h1, h2⟩ | ⟨h1, h2⟩ | h2)
    · exact Or.inr (Or.inr (Or.inr (Or.inr (Or.inr (Or.inr (Or.inr ⟨h2, h1⟩))))))
    · exact Or.inr (Or.inr (Or.inr (Or.inr (Or.inr (Or.inr (Or.inl ⟨h2, h1⟩))))))
    · exact Or.inr (Or.inr (Or.inr (Or.inr (Or.inr (Or.inl ⟨h2, h1⟩)))))
    · exact Or.inr (Or.inr (Or.inr (Or.inr (Or.inl ⟨h2, h1⟩))))
    · exact Or.inr (Or.inr (Or.inr (Or.inl ⟨h2, h1⟩)))
    · exact Or.inr (Or.inr (Or.inl ⟨h2, h1⟩))
    · exact Or.inr (Or.inl ⟨h2, h1⟩)
    · exact Or.inl h2
  · rintro (h2 | ⟨h2, h1⟩ | ⟨h2, h1⟩ | ⟨h2, h1⟩ | ⟨h2, h1⟩ | ⟨h2, h1⟩ | ⟨h2, h1⟩ | ⟨h2, h1⟩)
    · exact Or.inr (Or.inr (Or.inr (Or.inr (Or.inr (Or.inr (Or.inr h2))))))
    · exact Or.inr (Or.inr (Or.inr (Or.inr (Or.inr (Or.inr (Or.inl ⟨h1, h2⟩))))))
    · exact Or.inr (Or.inr (Or.inr (Or.inr (Or.inr (Or.inl ⟨h1, h2⟩)))))
    · exact Or.inr (Or.inr (Or.inr (Or.inr (Or.inl ⟨h1, h2⟩))))
    · exact Or.inr (Or.inr (Or.inr (Or.inl ⟨h1, h2⟩)))
    · exact Or.inr (Or.inr (Or.inl ⟨h1, h2⟩))
    · exact Or.inr (Or.inl ⟨h1, h2⟩)
    · exact Or.inl ⟨h1, h2⟩

theorem mapGet_assetsDoc_large_text (act : Activity) (a : Assets) :
    mapGet (assetsDoc act a) "large_text"
      = if a.LargeImage ≠ "" then
          some (.str (if a.LargeText = "" then act.State else a.LargeText))
        else none := by
  unfold assetsDoc
  by_cases h1 : a.LargeImage = "" <;> by_cases h2 : a.LargeText = "" <;>
    by_cases h3 : a.SmallImage = "" <;> by_cases h4 : a.SmallText = "" <;>
    simp [h1, h2, h3, h4, mapGet_mapSet, mapGet, mapSet]

theorem mapGet_assetsDoc_small_text (act : Activity) (a : Assets) :
    mapGet (assetsDoc act a) "small_text"
      = if a.SmallImage ≠ "" then
          some (.str (if a.SmallText = "" then act.State else a.SmallText))
        else none := by
  unfold assetsDoc
  by_cases h1 : a.LargeImage = "" <;> by_cases h2 : a.LargeText = "" <;>
    by_cases h3 : a.SmallImage = "" <;> by_cases h4 : a.SmallText = "" <;>
    simp [h1, h2, h3, h4, mapGet_mapSet, mapGet, mapSet]

theorem mem_mapKeys_assetsDoc (act : Activity) (a : Assets) (k : String) :
    k ∈ mapKeys (assetsDoc act a) ↔
      (a.LargeImage ≠ "" ∧ (k = "large_image" ∨ k = "large_text"))
      ∨ (a.SmallImage ≠ "" ∧ (k = "small_image" ∨ k = "small_text")) := by
  unfold assetsDoc
  by_cases h1 : a.LargeImage = "" <;> by_cases h2 : a.LargeText = "" <;>
    by_cases h3 : a.SmallImage = "" <;> by_cases h4 : a.SmallText = "" <;>
    simp [h1, h2, h3, h4, mapKeys, mapSet] <;> tauto

theorem mapGet_payloadAct_assets (a : Activity) :
    mapGet (payloadAct a) "assets"
      = match a.Assets with
        | some x => some (.map (assetsDoc a x))
        | none => none := by
  rw [payloadAct_eq]
  simp only [mapGet_setOpt, mapGet_setIf, mapGet_mapSet, mapGet]
  cases a.Assets <;> cases a.Timestamps <;> cases a.Party <;> simp

theorem mapGet_payloadAct_type (a : Activity) :
    mapGet (payloadAct a) "type" = some (.int a.Type_) := by
  rw [payloadAct_eq]
  simp only [mapGet_setOpt, mapGet_setIf, mapGet_mapSet, mapGet]
  cases a.Assets <;> cases a.Timestamps <;> cases a.Party <;> simp

theorem mapGet_payloadAct_state (a : Activity) :
    mapGet (payloadAct a) "state" = if a.State = "" then none else some (.str a.State) := by
  rw [payloadAct_eq]
  simp only [mapGet_setOpt, mapGet_setIf, mapGet_mapSet, mapGet]
  cases a.Assets <;> cases a.Timestamps <;> cases a.Party <;>
    by_cases h : a.State = "" <;> simp [h]

theorem mapGet_payloadAct_details (a : Activity) :
    mapGet (payloadAct a) "details"
      = if a.Details = "" then none else some (.str a.Details) := by
  rw [payloadAct_eq]
  simp only [mapGet_setOpt, mapGet_setIf, mapGet_mapSet, mapGet]
  cases a.Assets <;> cases a.Timestamps <;> cases a.Party <;>
    by_cases h : a.Details = "" <;> simp [h]

theorem nodup_mapKeys_payloadAct (a : Activity) : (mapKeys (payloadAct a)).Nodup := by
  rw [payloadAct_eq]
  refine nodup_mapKeys_setOpt _ _ _ _ _ (nodup_mapKeys_setIf _ _ _ _ (nodup_mapKeys_setIf _ _ _ _
    (nodup_mapKeys_setOpt _ _ _ _ _ (nodup_mapKeys_setOpt _ _ _ _ _ (nodup_mapKeys_setIf _ _ _ _
    (nodup_mapKeys_setIf _ _ _ _ (nodup_mapKeys_mapSet _ _ _ ?_)))))))
  simp [mapKeys]

/-! ## Lemmas on `normalizeActivity` -/

theorem normalizeActivity_State (env : Env) (n : Nat) (act : Activity) :
    (normalizeActivity env n act).1.State = act.State := rfl

theorem normalizeActivity_Details (env : Env) (n : Nat) (act : Activity) :
    (normalizeActivity env n act).1.Details = act.Details := rfl

theorem normalizeActivity_Type (env : Env) (n : Nat) (act : Activity) :
    (normalizeActivity env n act).1.Type_ = act.Type_ := rfl

theorem normalizeActivity_Timestamps (env : Env) (n : Nat) (act : Activity) :
    (normalizeActivity env n act).1.Timestamps = act.Timestamps := rfl

theorem normalizeActivity_Assets (env : Env) (n : Nat) (act : Activity) :
    (normalizeActivity env n act).1.Assets = act.Assets := rfl

theorem normalizeActivity_Secrets (env : Env) (n : Nat) (act : Activity) :
    (normalizeActivity env n act).1.Secrets = act.Secrets := rfl

theorem normalizeActivity_Buttons (env : Env) (n : Nat) (act : Activity) :
    (normalizeActivity env n act).1.Buttons = specButtons act.Buttons :=
  validButtonsLoop_nil_eq act.Buttons

theorem normalizeActivity_Party (env : Env) (n : Nat) (act : Activity) :
    (∃ p, (normalizeActivity env n act).1.Party = some p ∧ p.Size.length = 2)
      ↔ ∃ p, act.Party = some p ∧ p.Size.length = 2 := by
  unfold normalizeActivity
  cases hP : act.Party with
  | none => simp
  | some p =>
    by_cases h : (p.Size.length == 2 && p.ID == "") = true
    · simp [h]
    · simp [h]

/-! ## Lemmas on `TrimSpace`, `isSpace` and `HasPrefix` -/

theorem head?_dropWhile_isSpace (l : List Char) (c : Char)
    (h : (l.dropWhile isSpace).head? = some c) : isSpace c = false := by
  have := List.head?_dropWhile_not isSpace l
  rw [h] at this
  exact this

/-- The result of `TrimSpace` is the string between a leading run and a trailing run of
white space, and neither begins nor ends with white space. -/
theorem TrimSpace_spec (s : String) :
    ∃ pre suf : List Char, s.data = pre ++ (TrimSpace s).data ++ suf
      ∧ (∀ c ∈ pre, isSpace c = true) ∧ (∀ c ∈ suf, isSpace c = true)
      ∧ (∀ c, (TrimSpace s).data.head? = some c → isSpace c = false)
      ∧ (∀ c, (TrimSpace s).data.getLast? = some c → isSpace c = false) := by
  have ht : (TrimSpace s).data
      = ((s.data.dropWhile isSpace).reverse.dropWhile isSpace).reverse := rfl
  have hm : s.data.dropWhile isSpace
      = ((s.data.dropWhile isSpace).reverse.dropWhile isSpace).reverse
        ++ ((s.data.dropWhile isSpace).reverse.takeWhile isSpace).reverse := by
    rw [← List.reverse_append, List.takeWhile_append_dropWhile, List.reverse_reverse]
  refine ⟨s.data.takeWhile isSpace,
    ((s.data.dropWhile isSpace).reverse.takeWhile isSpace).reverse, ?_, ?_, ?_, ?_, ?_⟩
  · rw [ht, List.append_assoc, ← hm, List.takeWhile_append_dropWhile]
  · intro c hc
    exact List.mem_takeWhile_imp hc
  · intro c hc
    exact List.mem_takeWhile_imp (List.mem_reverse.1 hc)
  · intro c hc
    rw [ht] at hc
    apply head?_dropWhile_isSpace s.data c
    rw [hm, List.head?_append, hc]
    rfl
  · intro c hc
    rw [ht, List.getLast?_reverse] at hc
    exact head?_dropWhile_isSpace _ c hc

theorem isSpace_iff (c : Char) :
    isSpace c = true ↔
      c.toNat = 0x09 ∨ c.toNat = 0x0A ∨ c.toNat = 0x0B ∨ c.toNat = 0x0C ∨ c.toNat = 0x0D
      ∨ c.toNat = 0x20 ∨ c.toNat = 0x85 ∨ c.toNat = 0xA0 ∨ c.toNat = 0x1680
      ∨ (0x2000 ≤ c.toNat ∧ c.toNat ≤ 0x200A) ∨ c.toNat = 0x2028 ∨ c.toNat = 0x2029
      ∨ c.toNat = 0x202F ∨ c.toNat = 0x205F ∨ c.toNat = 0x3000 := by
  unfold isSpace
  simp only [Bool.or_eq_true, Bool.and_eq_true, beq_iff_eq, decide_eq_true_eq, or_assoc]

theorem HasPrefix_iff (s pre : String) :
    HasPrefix s pre = true ↔ ∃ t : List Char, s.data = pre.data ++ t := by
  unfold HasPrefix
  rw [List.isPrefixOf_iff_prefix]
  constructor
  · rintro ⟨t, ht⟩
    exact ⟨t, ht.symm⟩
  · rintro ⟨t, ht⟩
    exact ⟨t, ht.symm⟩

theorem mem_specButtons (bs : List Button) (b : Button) (h : b ∈ specButtons bs) :
    ∃ b0 ∈ bs, b.Label = TrimSpace b0.Label ∧ b.Url = TrimSpace b0.Url
      ∧ b.Label ≠ "" ∧ b.Url ≠ ""
      ∧ (HasPrefix b.Url "http://" = true ∨ HasPrefix b.Url "https://" = true) := by
  unfold specButtons at h
  have h1 := List.mem_of_mem_take h
  rw [List.mem_filter, List.mem_map] at h1
  obtain ⟨⟨b0, hb0, hb⟩, hal⟩ := h1
  subst hb
  simp only [allowedButton, trimButton, Bool.and_eq_true, Bool.or_eq_true,
    decide_eq_true_eq] at hal
  exact ⟨b0, hb0, rfl, rfl, hal.1.1, hal.1.2, hal.2⟩

/-! ## The activity document: claims C5 to C7 -/

/-- C5: the buttons that `sendSetActivity` keeps are the first 2 (or fewer) of the input
buttons, in order, after trimming label and url and dropping the buttons with an empty
label, an empty url or a url that starts with neither `http://` nor `https://`; these are
the buttons placed under `"buttons"` in the outbound document (no entry when none
survives). Trimming removes exactly the leading and the trailing run of white space, white
space being the code points of `unicode.IsSpace`; every kept button is the trimmed form of
an input button. On the input of the specification the result is
`[{Docs, https://x}, {Repo, http://y}]`, and buttons written with surrounding white space
come out trimmed. -/
theorem sendSetActivity_buttons (env : Env) (uuids : Nat) (act : Activity) :
    validButtonsLoop act.Buttons [] = specButtons act.Buttons
    ∧ (normalizeActivity env uuids act).1.Buttons = specButtons act.Buttons
    ∧ mapGet (payloadAct (normalizeActivity env uuids act).1) "buttons"
        = (if specButtons act.Buttons = [] then none
           else some (.buttons (specButtons act.Buttons)))
    ∧ validButtonsLoop [⟨"", "https://x"⟩, ⟨"Docs", "ftp://x"⟩, ⟨"Docs", "https://x"⟩,
        ⟨"Repo", "http://y"⟩, ⟨"Extra", "https://z"⟩] []
        = [⟨"Docs", "https://x"⟩, ⟨"Repo", "http://y"⟩]
    ∧ validButtonsLoop act.Buttons []
        = ((act.Buttons.map (fun b => (⟨TrimSpace b.Label, TrimSpace b.Url⟩ : Button))).filter
            (fun b => decide (b.Label ≠ "") && decide (b.Url ≠ "")
              && (HasPrefix b.Url "http://" || HasPrefix b.Url "https://"))).take 2
    ∧ (∀ b ∈ validButtonsLoop act.Buttons [],
        ∃ b0 ∈ act.Buttons, b.Label = TrimSpace b0.Label ∧ b.Url = TrimSpace b0.Url
          ∧ b.Label ≠ "" ∧ b.Url ≠ ""
          ∧ (HasPrefix b.Url "http://" = true ∨ HasPrefix b.Url "https://" = true))
    ∧ (∀ s : String, ∃ pre suf : List Char, s.data = pre ++ (TrimSpace s).data ++ suf
        ∧ (∀ c ∈ pre, isSpace c = true) ∧ (∀ c ∈ suf, isSpace c = true)
        ∧ (∀ c, (TrimSpace s).data.head? = some c → isSpace c = false)
        ∧ (∀ c, (TrimSpace s).data.getLast? = some c → isSpace c = false))
    ∧ (∀ c : Char, isSpace c = true ↔
        c.toNat = 0x09 ∨ c.toNat = 0x0A ∨ c.toNat = 0x0B ∨ c.toNat = 0x0C ∨ c.toNat = 0x0D
        ∨ c.toNat = 0x20 ∨ c.toNat = 0x85 ∨ c.toNat = 0xA0 ∨ c.toNat = 0x1680
        ∨ (0x2000 ≤ c.toNat ∧ c.toNat ≤ 0x200A) ∨ c.toNat = 0x2028 ∨ c.toNat = 0x2029
        ∨ c.toNat = 0x202F ∨ c.toNat = 0x205F ∨ c.toNat = 0x3000)
    ∧ (∀ s pre : String, HasPrefix s pre = true ↔ ∃ t : List Char, s.data = pre.data ++ t)
    ∧ validButtonsLoop [⟨"  Open Docs\t", "\n https://x \r\n"⟩, ⟨" \t ", "https://y"⟩,
        ⟨"Bad", "  ftp://z"⟩, ⟨"Repo", " http://y"⟩, ⟨"Extra", "https://z "⟩] []
        = [⟨"Open Docs", "https://x"⟩, ⟨"Repo", "http://y"⟩]
    ∧ TrimSpace " \t\n\r a b \t\n\r " = "a b" := by
  refine ⟨validButtonsLoop_nil_eq _, normalizeActivity_Buttons env uuids act, ?_, by decide,
    ?_, ?_, TrimSpace_spec, isSpace_iff, HasPrefix_iff, by decide, by decide⟩
  · rw [mapGet_payloadAct_buttons, normalizeActivity_Buttons]
  · rw [validButtonsLoop_nil_eq]
    rfl
  · intro b hb
    rw [validButtonsLoop_nil_eq] at hb
    exact mem_specButtons act.Buttons b hb

/-- C6: the activity document built by `sendSetActivity` has distinct keys; it has the key
`"type"`, holding the numeric kind; `"state"` and `"details"` exactly when the string is
non-empty; `"timestamps"` exactly when timestamps are present with a nonzero start or end;
`"party"` exactly when a party is present with a size of 2 elements; `"secrets"` exactly
when the secrets are non-empty; `"buttons"` exactly when the filtered buttons are non-empty;
`"assets"` exactly when an assets block was supplied; it has no other key; and the assets
document has `"large_image"` and `"small_image"` exactly when that image is non-empty. -/
theorem payloadAct_keys (env : Env) (uuids : Nat) (act : Activity) :
    (∀ k, k ∈ mapKeys (payloadAct (normalizeActivity env uuids act).1) ↔
      k = "type" ∨ (k = "state" ∧ act.State ≠ "") ∨ (k = "details" ∧ act.Details ≠ "")
      ∨ (k = "timestamps" ∧ ∃ t, act.Timestamps = some t ∧ (t.Start ≠ 0 ∨ t.End ≠ 0))
      ∨ (k = "party" ∧ ∃ p, act.Party = some p ∧ p.Size.length = 2)
      ∨ (k = "secrets" ∧ act.Secrets ≠ [])
      ∨ (k = "buttons" ∧ specButtons act.Buttons ≠ [])
      ∨ (k = "assets" ∧ ∃ x, act.Assets = some x))
    ∧ (mapKeys (payloadAct (normalizeActivity env uuids act).1)).Nodup
    ∧ mapGet (payloadAct (normalizeActivity env uuids act).1) "type" = some (.int act.Type_)
    ∧ ∀ x, act.Assets = some x →
        ∃ m, mapGet (payloadAct (normalizeActivity env uuids act).1) "assets" = some (.map m)
          ∧ ("large_image" ∈ mapKeys m ↔ x.LargeImage ≠ "")
          ∧ ("small_image" ∈ mapKeys m ↔ x.SmallImage ≠ "") := by
  refine ⟨?_, nodup_mapKeys_payloadAct _, ?_, ?_⟩
  · intro k
    rw [mem_mapKeys_payloadAct, normalizeActivity_Party, normalizeActivity_State,
      normalizeActivity_Details, normalizeActivity_Timestamps, normalizeActivity_Secrets,
      normalizeActivity_Buttons, normalizeActivity_Assets]
  · rw [mapGet_payloadAct_type, normalizeActivity_Type]
  · intro x hx
    refine ⟨assetsDoc (normalizeActivity env uuids act).1 x, ?_, ?_, ?_⟩
    · rw [mapGet_payloadAct_assets, normalizeActivity_Assets, hx]
    · rw [mem_mapKeys_assetsDoc]
      simp
    · rw [mem_mapKeys_assetsDoc]
      simp

/-- C7: with an assets block, the built assets document holds under `"large_text"` (resp.
`"small_text"`) the explicit caption when the image is non-empty and the caption is
non-empty, the activity's state when the image is non-empty and the caption is empty, and
nothing when the image is empty; with large image `logo`, no large caption and state
`Playing` the large caption is `Playing`. -/
theorem assets_caption_default (env : Env) (uuids : Nat) (act : Activity) (x : Assets)
    (hx : act.Assets = some x) :
    ∃ m, mapGet (payloadAct (normalizeActivity env uuids act).1) "assets" = some (.map m)
      ∧ (x.LargeImage ≠ "" → x.LargeText ≠ "" → mapGet m "large_text" = some (.str x.LargeText))
      ∧ (x.LargeImage ≠ "" → x.LargeText = "" → mapGet m "large_text" = some (.str act.State))
      ∧ (x.LargeImage = "" → mapGet m "large_text" = none)
      ∧ (x.SmallImage ≠ "" → x.SmallText ≠ "" → mapGet m "small_text" = some (.str x.SmallText))
      ∧ (x.SmallImage ≠ "" → x.SmallText = "" → mapGet m "small_text" = some (.str act.State))
      ∧ (x.SmallImage = "" → mapGet m "small_text" = none)
      ∧ (x.LargeImage = "logo" → x.LargeText = "" → act.State = "Playing" →
          mapGet m "large_text" = some (.str "Playing")) := by
  refine ⟨assetsDoc (normalizeActivity env uuids act).1 x, ?_, ?_, ?_, ?_, ?_, ?_, ?_, ?_⟩
  · rw [mapGet_payloadAct_assets, normalizeActivity_Assets, hx]
  · intro h1 h2
    rw [mapGet_assetsDoc_large_text, if_pos h1, if_neg h2]
  · intro h1 h2
    rw [mapGet_assetsDoc_large_text, if_pos h1, if_pos h2, normalizeActivity_State]
  · intro h1
    rw [mapGet_assetsDoc_large_text, if_neg (by simp [h1])]
  · intro h1 h2
    rw [mapGet_assetsDoc_small_text, if_pos h1, if_neg h2]
  · intro h1 h2
    rw [mapGet_assetsDoc_small_text, if_pos h1, if_pos h2, normalizeActivity_State]
  · intro h1
    rw [mapGet_assetsDoc_small_text, if_neg (by simp [h1])]
  · intro h1 h2 h3
    have hne : x.LargeImage ≠ "" := by rw [h1]; decide
    rw [mapGet_assetsDoc_large_text, if_pos hne, if_pos h2, normalizeActivity_State, h3]

theorem payloadAct_keys_witness :
    ∃ m, mapGet (payloadAct (normalizeActivity exampleEnv 0 exampleActivity).1) "assets"
        = some (.map m)
      ∧ "large_image" ∈ mapKeys m ∧ ¬ "small_image" ∈ mapKeys m := by
  obtain ⟨m, h0, h1, h2⟩ :=
    (payloadAct_keys exampleEnv 0 exampleActivity).2.2.2 ⟨"logo", "", "", ""⟩ rfl
  exact ⟨m, h0, h1.2 (by decide), fun h => (h2.1 h) rfl⟩

theorem assets_caption_default_witness :
    ∃ m, mapGet (payloadAct (normalizeActivity exampleEnv 0 exampleActivity).1) "assets"
        = some (.map m)
      ∧ mapGet m "large_text" = some (.str "Playing") ∧ mapGet m "small_text" = none := by
  obtain ⟨m, h0, _, h2, _, _, _, h6, _⟩ :=
    assets_caption_default exampleEnv 0 exampleActivity ⟨"logo", "", "", ""⟩ rfl
  exact ⟨m, h0, h2 (by decide) rfl, h6 rfl⟩

/-! ## Lemmas on the session -/

theorem writes_append (t u : List Effect) : writes (t ++ u) = writes t ++ writes u := by
  induction t with
  | nil => rfl
  | cons e t ih =>
    cases e with
    | write b =>
      show b :: writes (t ++ u) = b :: writes t ++ writes u
      rw [ih]
      rfl
    | _ =>
      show writes (t ++ u) = writes t ++ writes u
      exact ih

theorem SetActivity_of_not_ready (env : Env) (w : World) (a : Activity)
    (h : w.c.ready = false) :
    SetActivity env w a
      = ({ w with c := { w.c with activity := a, pendingActivity := some a } }, none) := by
  unfold SetActivity
  simp [h]

/-- After a non-empty sequence of `SetActivity` calls on a client that is not ready, only
the last activity is held, and nothing else has changed. -/
theorem setActivities_of_not_ready (env : Env) (w : World) (acts : List Activity)
    (a : Activity) (h : w.c.ready = false) :
    setActivities env w (acts ++ [a])
      = { w with c := { w.c with activity := a, pendingActivity := some a } } := by
  unfold setActivities
  induction acts generalizing w with
  | nil =>
    simp only [List.nil_append, List.foldl_cons, List.foldl_nil]
    rw [SetActivity_of_not_ready env w a h]
  | cons b rest ih =>
    simp only [List.cons_append, List.foldl_cons]
    rw [SetActivity_of_not_ready env w b h]
    exact ih _ h

theorem sendSetActivity_open (env : Env) (w : World) (conn : Conn) (act : Activity)
    (ht : w.c.transport = some conn) (hc : conn.closed = false) :
    sendSetActivity env w act
      = ({ w with
            uuids := (setActivityPayload env w.uuids act).2,
            trace := w.trace ++ [.write (putInt32LE (int32 OpFrame)
              ++ putInt32LE (int32
                  ((env.json (.map (setActivityPayload env w.uuids act).1)).length : Int))
              ++ env.json (.map (setActivityPayload env w.uuids act).1))] },
          if conn.writeFails then some .write else none) := by
  unfold sendSetActivity
  rw [ht]
  simp only [Conn.SendOp, EncodeFrameOp, Conn.SendRaw, hc, Bool.false_eq_true, if_false]

/-! ## The session: claims C8 to C10 -/

/-- C8: on a client that is not ready, connected or not, `SetActivity(a)` returns no error,
performs no effect (so no transport write), stores `a` as the pending activity and as the
last activity, and leaves the ready flag, the transport handle and the reconnect flag as
they were. -/
theorem SetActivity_before_ready (env : Env) (w : World) (a : Activity)
    (h : w.c.ready = false) :
    (SetActivity env w a).2 = none
      ∧ (SetActivity env w a).1.trace = w.trace
      ∧ (SetActivity env w a).1.c.pendingActivity = some a
      ∧ (SetActivity env w a).1.c.activity = a
      ∧ (SetActivity env w a).1.c.ready = w.c.ready
      ∧ (SetActivity env w a).1.c.transport = w.c.transport
      ∧ (SetActivity env w a).1.c.reconnect = w.c.reconnect := by
  rw [SetActivity_of_not_ready env w a h]
  exact ⟨rfl, rfl, rfl, rfl, rfl, rfl, rfl⟩

theorem SetActivity_before_ready_witness :
    (SetActivity exampleEnv exampleWorld exampleActivity).2 = none
      ∧ (SetActivity exampleEnv exampleWorld exampleActivity).1.trace = exampleWorld.trace
      ∧ (SetActivity exampleEnv exampleWorld exampleActivity).1.c.pendingActivity
          = some exampleActivity
      ∧ (SetActivity exampleEnv exampleWorld exampleActivity).1.c.activity = exampleActivity
      ∧ (SetActivity exampleEnv exampleWorld exampleActivity).1.c.ready = exampleWorld.c.ready
      ∧ (SetActivity exampleEnv exampleWorld exampleActivity).1.c.transport
          = exampleWorld.c.transport
      ∧ (SetActivity exampleEnv exampleWorld exampleActivity).1.c.reconnect
          = exampleWorld.c.reconnect :=
  SetActivity_before_ready exampleEnv exampleWorld exampleActivity rfl

/-- C9: after a non-empty sequence of `SetActivity` calls `acts ++ [a]` on a client that is
not ready and holds an open connection, nothing has been written; handling a READY event
then sets the ready flag, clears the pending activity and writes exactly one frame: the
operation code 1, the length of the body, and as body the serialization of the command
document `{cmd: SET_ACTIVITY, args: {pid, activity}, nonce}` whose activity document is
built from `a` (its `type`, `state`, `details` and `buttons` entries are those of `a`) and
from none of `acts`; handling any further event without a `SetActivity` in between writes
nothing. -/
theorem flush_on_READY (env : Env) (w : World) (conn : Conn) (acts : List Activity)
    (a : Activity) (op : OpCode) (doc : GoMap)
    (hr : w.c.ready = false) (ht : w.c.transport = some conn) (hc : conn.closed = false)
    (hd : mapGet doc "evt" = some (.str "READY")) :
    writes (setActivities env w (acts ++ [a])).trace = writes w.trace
      ∧ (handleIncoming env (setActivities env w (acts ++ [a])) op doc).c.ready = true
      ∧ (handleIncoming env (setActivities env w (acts ++ [a])) op doc).c.pendingActivity = none
      ∧ (∃ bytes,
          EncodeFrameOp (fun d => Except.ok (env.json d)) OpFrame
              (Any.map (setActivityPayload env w.uuids a).1) = .ok bytes
          ∧ writes (handleIncoming env (setActivities env w (acts ++ [a])) op doc).trace
              = writes w.trace ++ [bytes])
      ∧ (∃ body : List Byte,
          body = env.json (Any.map
            [("cmd", .str "SET_ACTIVITY"),
              ("args", .map [("pid", .int env.pid),
                ("activity", .map (payloadAct (normalizeActivity env w.uuids a).1))]),
              ("nonce", .str (env.uuid (normalizeActivity env w.uuids a).2))])
          ∧ writes (handleIncoming env (setActivities env w (acts ++ [a])) op doc).trace
              = writes w.trace
                ++ [putInt32LE 1 ++ putInt32LE (int32 (body.length : Int)) ++ body])
      ∧ mapGet (payloadAct (normalizeActivity env w.uuids a).1) "type" = some (.int a.Type_)
      ∧ mapGet (payloadAct (normalizeActivity env w.uuids a).1) "state"
          = (if a.State = "" then none else some (.str a.State))
      ∧ mapGet (payloadAct (normalizeActivity env w.uuids a).1) "details"
          = (if a.Details = "" then none else some (.str a.Details))
      ∧ mapGet (payloadAct (normalizeActivity env w.uuids a).1) "buttons"
          = (if specButtons a.Buttons = [] then none
             else some (.buttons (specButtons a.Buttons)))
      ∧ ∀ (op' : OpCode) (doc' : GoMap),
          writes (handleIncoming env
              (handleIncoming env (setActivities env w (acts ++ [a])) op doc) op' doc').trace
            = writes (handleIncoming env (setActivities env w (acts ++ [a])) op doc).trace := by
  rw [setActivities_of_not_ready env w acts a hr]
  have hh : handleIncoming env
      { w with c := { w.c with activity := a, pendingActivity := some a } } op doc
      = { c := { w.c with activity := a, pendingActivity := none, ready := true },
          uuids := (setActivityPayload env w.uuids a).2,
          trace := (if w.c.onReady then w.trace ++ [.onReady
              (match mapGet doc "data" with
                | some (.map tmp) => some tmp
                | _ => none)] else w.trace)
            ++ [.write (putInt32LE (int32 OpFrame)
              ++ putInt32LE (int32
                  ((env.json (.map (setActivityPayload env w.uuids a).1)).length : Int))
              ++ env.json (.map (setActivityPayload env w.uuids a).1))] } := by
    unfold handleIncoming sendSetActivity
    simp only [hd, beq_self_eq_true, if_true, ht, Conn.SendOp, EncodeFrameOp, Conn.SendRaw, hc,
      Bool.false_eq_true, if_false]
    by_cases ho : w.c.onReady = true
    · simp only [ho, hc, Bool.false_eq_true, if_true, if_false]
    · simp only [ho, hc, Bool.false_eq_true, if_false]
  rw [hh]
  have hwr : writes ((if w.c.onReady then w.trace ++ [Effect.onReady
              (match mapGet doc "data" with
                | some (.map tmp) => some tmp
                | _ => none)] else w.trace)
            ++ [Effect.write (putInt32LE (int32 OpFrame)
              ++ putInt32LE (int32
                  ((env.json (.map (setActivityPayload env w.uuids a).1)).length : Int))
              ++ env.json (.map (setActivityPayload env w.uuids a).1))])
      = writes w.trace ++ [putInt32LE (int32 OpFrame)
              ++ putInt32LE (int32
                  ((env.json (.map (setActivityPayload env w.uuids a).1)).length : Int))
              ++ env.json (.map (setActivityPayload env w.uuids a).1)] := by
    by_cases ho : w.c.onReady = true
    · simp only [ho, if_true, writes_append, writes, List.append_nil]
    · simp only [ho, Bool.false_eq_true, if_false, writes_append, writes]
  refine ⟨rfl, rfl, rfl, ⟨_, EncodeFrameOp_ok _ _ _ _ rfl, hwr⟩, ⟨_, rfl, hwr⟩, ?_, ?_, ?_, ?_, ?_⟩
  · rw [mapGet_payloadAct_type, normalizeActivity_Type]
  · rw [mapGet_payloadAct_state, normalizeActivity_State]
  · rw [mapGet_payloadAct_details, normalizeActivity_Details]
  · rw [mapGet_payloadAct_buttons, normalizeActivity_Buttons]
  · intro op' doc'
    unfold handleIncoming
    cases mapGet doc' "evt" with
    | none => rfl
    | some v =>
      cases v with
      | str evt =>
        by_cases he : (evt == "READY") = true
        · simp only [he, if_true]
          by_cases ho : w.c.onReady = true
          · simp only [ho, if_true, writes_append, writes, List.append_nil]
          · simp only [ho, Bool.false_eq_true, if_false, writes_append, writes]
        · simp only [he, Bool.false_eq_true, if_false]
      | _ => rfl

theorem flush_on_READY_witness :
    writes (handleIncoming stateEnv
        (setActivities stateEnv exampleWorld ([idleActivity] ++ [exampleActivity]))
        OpFrame readyDoc).trace
      = [[1, 0, 0, 0, 7, 0, 0, 0, 80, 108, 97, 121, 105, 110, 103]]
    ∧ writes (handleIncoming stateEnv
        (setActivities stateEnv exampleWorld ([exampleActivity] ++ [idleActivity]))
        OpFrame readyDoc).trace
      = [[1, 0, 0, 0, 4, 0, 0, 0, 73, 100, 108, 101]] := by
  obtain ⟨_, _, _, _, ⟨b1, hb1, hw1⟩, _⟩ :=
    flush_on_READY stateEnv exampleWorld ⟨false, false, false⟩ [idleActivity] exampleActivity
      OpFrame readyDoc rfl rfl rfl rfl
  obtain ⟨_, _, _, _, ⟨b2, hb2, hw2⟩, _⟩ :=
    flush_on_READY stateEnv exampleWorld ⟨false, false, false⟩ [exampleActivity] idleActivity
      OpFrame readyDoc rfl rfl rfl rfl
  constructor
  · rw [hw1, hb1]
    decide
  · rw [hw2, hb2]
    decide

/-- C10: with an open transport `sendSetActivity` performs exactly one effect, one write of
one frame; the frame is the encoding with operation code 1 of a document with exactly the
keys `cmd`, `args` and `nonce`, where `cmd` is `SET_ACTIVITY`, `args` has exactly the keys
`pid`, the process id, and `activity`, the built activity document, and `nonce` is the
identifier drawn from the generator in this call. -/
theorem sendSetActivity_envelope (env : Env) (w : World) (conn : Conn) (act : Activity)
    (ht : w.c.transport = some conn) (hc : conn.closed = false) :
    ∃ (bytes : List Byte) (payload args : GoMap),
      (sendSetActivity env w act).1.trace = w.trace ++ [.write bytes]
      ∧ EncodeFrameOp (fun d => Except.ok (env.json d)) OpFrame (Any.map payload) = .ok bytes
      ∧ bytes.take 4 = putInt32LE 1
      ∧ bytes.drop 8 = env.json (Any.map payload)
      ∧ mapKeys payload = ["cmd", "args", "nonce"]
      ∧ mapGet payload "cmd" = some (.str "SET_ACTIVITY")
      ∧ mapGet payload "args" = some (.map args)
      ∧ mapGet payload "nonce" = some (.str (env.uuid (normalizeActivity env w.uuids act).2))
      ∧ (sendSetActivity env w act).1.uuids = (normalizeActivity env w.uuids act).2 + 1
      ∧ mapKeys args = ["pid", "activity"]
      ∧ mapGet args "pid" = some (.int env.pid)
      ∧ mapGet args "activity"
          = some (.map (payloadAct (normalizeActivity env w.uuids act).1)) := by
  rw [sendSetActivity_open env w conn act ht hc]
  refine ⟨_, (setActivityPayload env w.uuids act).1,
    [("pid", .int env.pid), ("activity", .map (payloadAct (normalizeActivity env w.uuids act).1))],
    rfl, EncodeFrameOp_ok _ _ _ _ rfl, ?_, ?_, rfl, rfl, rfl, rfl, rfl, rfl, rfl, rfl⟩
  · rw [encoded_take4]
    rfl
  · rw [encoded_drop8]

theorem sendSetActivity_envelope_witness :
    ∃ (bytes : List Byte) (payload args : GoMap),
      (sendSetActivity exampleEnv exampleWorld exampleActivity).1.trace
          = exampleWorld.trace ++ [.write bytes]
      ∧ EncodeFrameOp (fun d => Except.ok (exampleEnv.json d)) OpFrame (Any.map payload)
          = .ok bytes
      ∧ bytes.take 4 = putInt32LE 1
      ∧ bytes.drop 8 = exampleEnv.json (Any.map payload)
      ∧ mapKeys payload = ["cmd", "args", "nonce"]
      ∧ mapGet payload "cmd" = some (.str "SET_ACTIVITY")
      ∧ mapGet payload "args" = some (.map args)
      ∧ mapGet payload "nonce" = some (.str
          (exampleEnv.uuid (normalizeActivity exampleEnv exampleWorld.uuids exampleActivity).2))
      ∧ (sendSetActivity exampleEnv exampleWorld exampleActivity).1.uuids
          = (normalizeActivity exampleEnv exampleWorld.uuids exampleActivity).2 + 1
      ∧ mapKeys args = ["pid", "activity"]
      ∧ mapGet args "pid" = some (.int exampleEnv.pid)
      ∧ mapGet args "activity" = some (.map
          (payloadAct (normalizeActivity exampleEnv exampleWorld.uuids exampleActivity).1)) :=
  sendSetActivity_envelope exampleEnv exampleWorld ⟨false, false, false⟩ exampleActivity rfl rfl

/-! ## Lemmas on `Close` and `Connect` -/

theorem Close_of_none (w : World) (h : w.c.transport = none) :
    Close w = ({ w with c := { w.c with reconnect := false, closed := true } }, none) := by
  unfold Close
  simp only [h]

theorem Close_of_some (w : World) (conn : Conn) (h : w.c.transport = some conn) :
    Close w
      = ({ w with
            c := { w.c with reconnect := false, closed := true, transport := none },
            trace := (conn.Close w.trace).2.1 },
          (conn.Close w.trace).2.2) := by
  unfold Close
  simp only [h]

theorem Close_transport (w : World) : (Close w).1.c.transport = none := by
  cases h : w.c.transport with
  | none => rw [Close_of_none w h]; exact h
  | some conn => rw [Close_of_some w conn h]

theorem Close_reconnect (w : World) : (Close w).1.c.reconnect = false := by
  cases h : w.c.transport with
  | none => rw [Close_of_none w h]
  | some conn => rw [Close_of_some w conn h]

theorem Close_closed (w : World) : (Close w).1.c.closed = true := by
  cases h : w.c.transport with
  | none => rw [Close_of_none w h]
  | some conn => rw [Close_of_some w conn h]

theorem Connect_of_some (env : Env) (w : World) (dial : Option Conn) (conn : Conn)
    (h : w.c.transport = some conn) : Connect env w dial = (w, some .alreadyConnected) := by
  unfold Connect
  simp only [h]

theorem Connect_dial_failed (env : Env) (w : World) (h : w.c.transport = none) :
    Connect env w none = ({ w with trace := w.trace ++ [Effect.dial false] }, some .dial) := by
  unfold Connect
  simp only [h]

theorem Connect_handshake_failed (env : Env) (w : World) (pipe : Conn)
    (h : w.c.transport = none) (hw : pipe.writeFails = true) :
    Connect env w (some pipe)
      = ({ w with
            c := { w.c with transport := none, closed := false },
            trace := w.trace ++ [Effect.dial true]
              ++ [Effect.write (handshakeFrame env w.c.AppID)] ++ [Effect.closeConn] },
          some .handshakeSend) := by
  unfold Connect
  simp only [h, Conn.SendOp, EncodeFrameOp, Conn.SendRaw, Conn.Close, hw, Bool.false_eq_true,
    if_false, if_true]
  rfl

theorem Connect_succeeded (env : Env) (w : World) (pipe : Conn)
    (h : w.c.transport = none) (hw : pipe.writeFails = false) :
    Connect env w (some pipe)
      = ({ w with
            c := { w.c with transport := some { pipe with closed := false }, closed := false },
            trace := w.trace ++ [Effect.dial true]
              ++ [Effect.write (handshakeFrame env w.c.AppID)] ++ [Effect.spawnReadLoop] },
          none) := by
  unfold Connect
  simp only [h, Conn.SendOp, EncodeFrameOp, Conn.SendRaw, hw, Bool.false_eq_true, if_false]
  rfl

/-! ## Lemmas on the reconnect flag -/

theorem sendSetActivity_c (env : Env) (w : World) (a : Activity) :
    (sendSetActivity env w a).1.c = w.c := by
  unfold sendSetActivity
  cases w.c.transport <;> rfl

theorem SetActivity_reconnect (env : Env) (w : World) (a : Activity) :
    (SetActivity env w a).1.c.reconnect = w.c.reconnect := by
  unfold SetActivity
  by_cases h : w.c.ready = true
  · simp only [h, Bool.not_true, Bool.false_eq_true, if_false]
    rw [sendSetActivity_c]
  · simp only [h, Bool.not_false, if_true]

theorem handleIncoming_reconnect (env : Env) (w : World) (op : OpCode) (doc : GoMap) :
    (handleIncoming env w op doc).c.reconnect = w.c.reconnect := by
  unfold handleIncoming
  cases mapGet doc "evt" with
  | none => rfl
  | some v =>
    cases v with
    | str evt =>
      by_cases he : (evt == "READY") = true
      · by_cases ho : w.c.onReady = true
        · simp only [he, ho, if_true]
          cases w.c.pendingActivity with
          | none => rfl
          | some a => simp only [sendSetActivity_c]
        · simp only [he, ho, if_true, Bool.false_eq_true, if_false]
          cases w.c.pendingActivity with
          | none => rfl
          | some a => simp only [sendSetActivity_c]
      · simp only [he, Bool.false_eq_true, if_false]
    | _ => rfl

theorem Connect_reconnect (env : Env) (w : World) (dial : Option Conn) :
    (Connect env w dial).1.c.reconnect = w.c.reconnect := by
  cases h : w.c.transport with
  | some conn => rw [Connect_of_some env w dial conn h]
  | none =>
    cases dial with
    | none => rw [Connect_dial_failed env w h]
    | some pipe =>
      by_cases hw : pipe.writeFails = true
      · rw [Connect_handshake_failed env w pipe h hw]
      · rw [Connect_succeeded env w pipe h (by simpa using hw)]

theorem tryReconnectLoop_reconnect (env : Env) (dials : Nat → Option Conn) (n i b : Nat)
    (w : World) : (tryReconnectLoop env dials n i b w).c.reconnect = w.c.reconnect := by
  induction n generalizing i b w with
  | zero => rfl
  | succ n ih =>
    unfold tryReconnectLoop
    simp only
    split
    · split
      · rw [SetActivity_reconnect, Connect_reconnect]
      · rw [Connect_reconnect]
    · rw [ih, Connect_reconnect]

theorem readLoop_error_of_disabled (env : Env) (dials : Nat → Option Conn) (w : World)
    (h : w.c.reconnect = false) :
    readLoop env dials [.error] w
      = match w.c.transport with
        | none => w
        | some _ =>
          if w.c.onError then { w with trace := w.trace ++ [Effect.onError] } else w := by
  unfold readLoop
  cases w.c.transport with
  | none => rfl
  | some conn =>
    simp only
    by_cases ho : w.c.onError = true
    · simp only [ho, if_true, h, Bool.false_and, Bool.false_eq_true, if_false]
    · simp only [ho, Bool.false_eq_true, if_false, h, Bool.false_and]

theorem step_reconnect (env : Env) (w : World) (call : Call) (h : w.c.reconnect = false) :
    (step env w call).c.reconnect = false := by
  cases call with
  | connect dial => exact (Connect_reconnect env w dial).trans h
  | close => exact Close_reconnect w
  | setActivity a => exact (SetActivity_reconnect env w a).trans h
  | incoming op doc => exact (handleIncoming_reconnect env w op doc).trans h
  | receiveError dials =>
    show (readLoop env dials [.error] w).c.reconnect = false
    rw [readLoop_error_of_disabled env dials w h]
    cases w.c.transport with
    | none => exact h
    | some conn =>
      simp only
      split <;> exact h

theorem run_reconnect (env : Env) (w : World) (calls : List Call) (h : w.c.reconnect = false) :
    (run env w calls).c.reconnect = false := by
  unfold run
  induction calls generalizing w with
  | nil => exact h
  | cons call rest ih => exact ih _ (step_reconnect env w call h)

/-! ## Lemmas on the reconnection schedule -/

theorem ticks_append (t u : List Effect) : ticks (t ++ u) = ticks t ++ ticks u := by
  induction t with
  | nil => rfl
  | cons e t ih =>
    cases e with
    | sleep n =>
      show Tick.sleep n :: ticks (t ++ u) = Tick.sleep n :: ticks t ++ ticks u
      rw [ih]
      rfl
    | dial ok =>
      show Tick.dial :: ticks (t ++ u) = Tick.dial :: ticks t ++ ticks u
      rw [ih]
      rfl
    | _ =>
      show ticks (t ++ u) = ticks t ++ ticks u
      exact ih

theorem sendSetActivity_ticks (env : Env) (w : World) (a : Activity) :
    ticks (sendSetActivity env w a).1.trace = ticks w.trace := by
  unfold sendSetActivity
  cases w.c.transport with
  | none => rfl
  | some conn =>
    simp only [Conn.SendOp, EncodeFrameOp, Conn.SendRaw]
    by_cases hc : conn.closed = true
    · simp only [hc, if_true]
    · simp only [hc, Bool.false_eq_true, if_false, ticks_append]
      simp [ticks]

theorem SetActivity_ticks (env : Env) (w : World) (a : Activity) :
    ticks (SetActivity env w a).1.trace = ticks w.trace := by
  unfold SetActivity
  by_cases h : w.c.ready = true
  · simp only [h, Bool.not_true, Bool.false_eq_true, if_false]
    rw [sendSetActivity_ticks]
  · simp only [h, Bool.not_false, if_true]

/-- A failing `Connect` on a session without a handle: an error, still no handle, one
dial. -/
theorem Connect_attempt_failed (env : Env) (w : World) (dial : Option Conn)
    (h : w.c.transport = none) (hf : attemptFails dial = true) :
    (∃ e, (Connect env w dial).2 = some e)
      ∧ (Connect env w dial).1.c.transport = none
      ∧ ticks (Connect env w dial).1.trace = ticks w.trace ++ [Tick.dial] := by
  cases dial with
  | none =>
    rw [Connect_dial_failed env w h]
    refine ⟨⟨_, rfl⟩, h, ?_⟩
    simp only [ticks_append]
    rfl
  | some pipe =>
    have hw : pipe.writeFails = true := hf
    rw [Connect_handshake_failed env w pipe h hw]
    refine ⟨⟨_, rfl⟩, rfl, ?_⟩
    simp only [ticks_append]
    simp [ticks]

/-- A successful `Connect` on a session without a handle: no error, one dial. -/
theorem Connect_attempt_succeeded (env : Env) (w : World) (dial : Option Conn)
    (h : w.c.transport = none) (hf : attemptFails dial = false) :
    (Connect env w dial).2 = none
      ∧ ticks (Connect env w dial).1.trace = ticks w.trace ++ [Tick.dial] := by
  cases dial with
  | none => exact absurd hf (by decide)
  | some pipe =>
    have hw : pipe.writeFails = false := hf
    rw [Connect_succeeded env w pipe h hw]
    refine ⟨rfl, ?_⟩
    simp only [ticks_append]
    simp [ticks]

theorem tryReconnectLoop_of_error (env : Env) (dials : Nat → Option Conn) (n i b : Nat)
    (w : World) (e : ClientError)
    (h : (Connect env { w with trace := w.trace ++ [Effect.sleep b] } (dials i)).2 = some e) :
    tryReconnectLoop env dials (n + 1) i b w
      = tryReconnectLoop env dials n (i + 1) (b * 2)
          (Connect env { w with trace := w.trace ++ [Effect.sleep b] } (dials i)).1 := by
  rw [tryReconnectLoop]
  simp only [h]

theorem tryReconnectLoop_of_ok (env : Env) (dials : Nat → Option Conn) (n i b : Nat)
    (w : World)
    (h : (Connect env { w with trace := w.trace ++ [Effect.sleep b] } (dials i)).2 = none) :
    tryReconnectLoop env dials (n + 1) i b w
      = if !(Connect env { w with trace := w.trace ++ [Effect.sleep b] }
              (dials i)).1.c.activity.IsEmpty then
          (SetActivity env
            (Connect env { w with trace := w.trace ++ [Effect.sleep b] } (dials i)).1
            (Connect env { w with trace := w.trace ++ [Effect.sleep b] }
              (dials i)).1.c.activity).1
        else (Connect env { w with trace := w.trace ++ [Effect.sleep b] } (dials i)).1 := by
  rw [tryReconnectLoop]
  simp only [h]

theorem ticks_sleep (w : World) (b : Nat) :
    ticks ({ w with trace := w.trace ++ [Effect.sleep b] } : World).trace
      = ticks w.trace ++ [Tick.sleep b] := by
  simp only [ticks_append]
  rfl

/-- The loop when attempts `i .. i+k-1` fail and attempt `i+k` succeeds. -/
theorem tryReconnectLoop_ticks (env : Env) (dials : Nat → Option Conn) (k : Nat) :
    ∀ (m i b : Nat) (w : World), k < m → w.c.transport = none →
      (∀ j, j < k → attemptFails (dials (i + j)) = true) →
      attemptFails (dials (i + k)) = false →
      ticks (tryReconnectLoop env dials m i b w).trace = ticks w.trace ++ attemptSchedule k b := by
  induction k with
  | zero =>
    intro m i b w hm ht _ hs
    obtain ⟨n, rfl⟩ : ∃ n, m = n + 1 := ⟨m - 1, by omega⟩
    have hc := Connect_attempt_succeeded env { w with trace := w.trace ++ [Effect.sleep b] }
      (dials i) ht (by simpa using hs)
    rw [tryReconnectLoop_of_ok env dials n i b w hc.1]
    have hres : ticks (Connect env { w with trace := w.trace ++ [Effect.sleep b] }
        (dials i)).1.trace = ticks w.trace ++ attemptSchedule 0 b := by
      rw [hc.2, ticks_sleep]
      simp [attemptSchedule]
    split
    · rw [SetActivity_ticks, hres]
    · exact hres
  | succ k ih =>
    intro m i b w hm ht hf hs
    obtain ⟨n, rfl⟩ : ∃ n, m = n + 1 := ⟨m - 1, by omega⟩
    have hc := Connect_attempt_failed env { w with trace := w.trace ++ [Effect.sleep b] }
      (dials i) ht (by simpa using hf 0 (by omega))
    obtain ⟨⟨e, he⟩, hnone, htk⟩ := hc
    rw [tryReconnectLoop_of_error env dials n i b w e he]
    rw [ih n (i + 1) (b * 2) _ (by omega) hnone
      (fun j hj => by
        have := hf (j + 1) (by omega)
        rwa [show i + (j + 1) = i + 1 + j by omega] at this)
      (by rwa [show i + (k + 1) = i + 1 + k by omega] at hs)]
    rw [htk, ticks_sleep]
    simp [attemptSchedule]

/-- The loop when all of its `k` attempts fail. -/
theorem tryReconnectLoop_ticks_failed (env : Env) (dials : Nat → Option Conn) (k : Nat) :
    ∀ (i b : Nat) (w : World), w.c.transport = none →
      (∀ j, j < k → attemptFails (dials (i + j)) = true) →
      ticks (tryReconnectLoop env dials k i b w).trace = ticks w.trace ++ failedSchedule k b := by
  induction k with
  | zero =>
    intro i b w _ _
    simp [tryReconnectLoop, failedSchedule]
  | succ k ih =>
    intro i b w ht hf
    have hc := Connect_attempt_failed env { w with trace := w.trace ++ [Effect.sleep b] }
      (dials i) ht (by simpa using hf 0 (by omega))
    obtain ⟨⟨e, he⟩, hnone, htk⟩ := hc
    rw [tryReconnectLoop_of_error env dials k i b w e he]
    rw [ih (i + 1) (b * 2) _ hnone
      (fun j hj => by
        have := hf (j + 1) (by omega)
        rwa [show i + (j + 1) = i + 1 + j by omega] at this)]
    rw [htk, ticks_sleep]
    simp [failedSchedule]

/-- With a transport handle held, as when `readLoop` calls `tryReconnect` after a receive
error, every attempt fails as `already connected`: the loop sleeps `n` times and does
nothing else. -/
theorem tryReconnectLoop_holding_handle (env : Env) (dials : Nat → Option Conn) (conn : Conn)
    (n : Nat) : ∀ (i b : Nat) (w : World), w.c.transport = some conn →
      (tryReconnectLoop env dials n i b w).c = w.c
      ∧ writes (tryReconnectLoop env dials n i b w).trace = writes w.trace
      ∧ ticks (tryReconnectLoop env dials n i b w).trace
          = ticks w.trace ++ (List.range n).map (fun j => Tick.sleep (b * 2 ^ j)) := by
  induction n with
  | zero =>
    intro i b w _
    simp [tryReconnectLoop]
  | succ n ih =>
    intro i b w ht
    have hc := Connect_of_some env { w with trace := w.trace ++ [Effect.sleep b] } (dials i)
      conn ht
    have he : (Connect env { w with trace := w.trace ++ [Effect.sleep b] } (dials i)).2
        = some .alreadyConnected := by rw [hc]
    rw [tryReconnectLoop_of_error env dials n i b w _ he, hc]
    obtain ⟨h1, h2, h3⟩ := ih (i + 1) (b * 2) { w with trace := w.trace ++ [Effect.sleep b] } ht
    refine ⟨h1, ?_, ?_⟩
    · rw [h2, writes_append]
      simp [writes]
    · rw [h3, ticks_sleep, List.range_succ_eq_map]
      simp [List.map_map, Function.comp_def, pow_succ, Nat.mul_comm, Nat.mul_left_comm]
      intro a _
      ring

/-! ## The session: claims C13 to C16 -/

/-- C13, evaluated on the code: with every observer registered, `handleIncoming` returns
the session unchanged, without any observer call, on an activity-join event, on an
activity-spectate event and on a join-request event, also under their operation codes. -/
theorem handleIncoming_ignores_join :
    handleIncoming exampleEnv observedWorld OpActivityJoin joinDoc = observedWorld
      ∧ (handleIncoming exampleEnv observedWorld OpActivityJoin joinDoc).trace = []
      ∧ handleIncoming exampleEnv observedWorld OpActivitySpectate
          [("cmd", .str "DISPATCH"), ("evt", .str "ACTIVITY_SPECTATE"),
            ("data", .map [("secret", .str "s3cret")])] = observedWorld
      ∧ handleIncoming exampleEnv observedWorld OpActivityJoinRequest
          [("cmd", .str "DISPATCH"), ("evt", .str "ACTIVITY_JOIN_REQUEST"),
            ("data", .map [("user", .map [("id", .str "42")])])] = observedWorld :=
  ⟨rfl, rfl, rfl, rfl⟩

/-- C14: a second `Close` changes nothing, performs no effect and returns no error; after
`Close` the session holds no transport handle and reconnection is disabled; the first
`Close` closes the pipe exactly when a handle is held whose connection is not yet closed. -/
theorem Close_idempotent (w : World) :
    Close (Close w).1 = ((Close w).1, none)
      ∧ (Close (Close w).1).1.trace = (Close w).1.trace
      ∧ (Close w).1.c.transport = none
      ∧ (Close w).1.c.reconnect = false
      ∧ (Close w).1.trace =
          (match w.c.transport with
            | some conn => if conn.closed then w.trace else w.trace ++ [Effect.closeConn]
            | none => w.trace) := by
  have h1 : (Close w).1.c.transport = none := Close_transport w
  have h2 : (Close w).1.c.reconnect = false := Close_reconnect w
  have h3 : (Close w).1.c.closed = true := Close_closed w
  have h4 : Close (Close w).1 = ((Close w).1, none) := by
    rw [Close_of_none _ h1]
    generalize (Close w).1 = v at h1 h2 h3
    obtain ⟨c, u, t⟩ := v
    obtain ⟨a1, a2, a3, a4, a5, a6, a7, a8, a9, a10, a11, a12, a13, a14⟩ := c
    simp only at h2 h3
    subst h2 h3
    rfl
  refine ⟨h4, by rw [h4], h1, h2, ?_⟩
  cases h : w.c.transport with
  | none => rw [Close_of_none w h]
  | some conn =>
    rw [Close_of_some w conn h]
    simp only [Conn.Close]
    by_cases hc : conn.closed = true
    · simp only [hc, if_true]
    · simp only [hc, Bool.false_eq_true, if_false]

/-- C15: `Connect` on a session that holds a transport handle returns the `already
connected` error and leaves the session and the trace as they were (no dial, no handshake,
no receive loop); on a session without a handle, a failed dial returns an error after the
one dial and leaves every field of the client as it was, and a failed handshake write
returns an error after the dial, the handshake write and the close of the pipe, with no
transport handle held; in neither case is a receive loop started. -/
theorem Connect_failure (env : Env) (w : World) :
    (∀ (conn : Conn) (dial : Option Conn), w.c.transport = some conn →
        Connect env w dial = (w, some .alreadyConnected))
    ∧ (w.c.transport = none →
        (Connect env w none).2 = some .dial
        ∧ (Connect env w none).1.c = w.c
        ∧ (Connect env w none).1.trace = w.trace ++ [Effect.dial false])
    ∧ (∀ pipe : Conn, w.c.transport = none → pipe.writeFails = true →
        (Connect env w (some pipe)).2 = some .handshakeSend
        ∧ (Connect env w (some pipe)).1.c.transport = none
        ∧ (Connect env w (some pipe)).1.trace = w.trace ++ [Effect.dial true]
            ++ [Effect.write (handshakeFrame env w.c.AppID)] ++ [Effect.closeConn]) := by
  refine ⟨?_, ?_, ?_⟩
  · intro conn dial h
    exact Connect_of_some env w dial conn h
  · intro h
    rw [Connect_dial_failed env w h]
    exact ⟨rfl, rfl, rfl⟩
  · intro pipe h hw
    rw [Connect_handshake_failed env w pipe h hw]
    exact ⟨rfl, rfl, rfl⟩

theorem Connect_failure_witness :
    Connect exampleEnv exampleWorld (some goodPipe) = (exampleWorld, some .alreadyConnected)
    ∧ (Connect exampleEnv lostWorld none).2 = some .dial
    ∧ (Connect exampleEnv lostWorld none).1.c = lostWorld.c
    ∧ (Connect exampleEnv lostWorld (some ⟨false, true, false⟩)).2 = some .handshakeSend
    ∧ (Connect exampleEnv lostWorld (some ⟨false, true, false⟩)).1.c.transport = none :=
  ⟨(Connect_failure exampleEnv exampleWorld).1 ⟨false, false, false⟩ (some goodPipe) rfl,
    ((Connect_failure exampleEnv lostWorld).2.1 rfl).1,
    ((Connect_failure exampleEnv lostWorld).2.1 rfl).2.1,
    ((Connect_failure exampleEnv lostWorld).2.2 ⟨false, true, false⟩ rfl rfl).1,
    ((Connect_failure exampleEnv lostWorld).2.2 ⟨false, true, false⟩ rfl rfl).2.1⟩

/-- C16: on a ready client without a transport handle `SetActivity(a)` returns the `not
connected` error, performs no effect (so no transport write), leaves the pending activity
as it was, and records `a` as the last activity. -/
theorem SetActivity_not_connected (env : Env) (w : World) (a : Activity)
    (hr : w.c.ready = true) (ht : w.c.transport = none) :
    (SetActivity env w a).2 = some .notConnected
      ∧ (SetActivity env w a).1.trace = w.trace
      ∧ (SetActivity env w a).1.c.pendingActivity = w.c.pendingActivity
      ∧ (SetActivity env w a).1.c.activity = a := by
  unfold SetActivity sendSetActivity
  simp only [hr, ht, Bool.not_true, Bool.false_eq_true, if_false]
  refine ⟨?_, ?_, ?_, ?_⟩ <;> first | rfl | trivial

theorem SetActivity_not_connected_witness :
    (SetActivity exampleEnv lostWorld idleActivity).2 = some .notConnected
      ∧ (SetActivity exampleEnv lostWorld idleActivity).1.trace = lostWorld.trace
      ∧ (SetActivity exampleEnv lostWorld idleActivity).1.c.pendingActivity
          = lostWorld.c.pendingActivity
      ∧ (SetActivity exampleEnv lostWorld idleActivity).1.c.activity = idleActivity :=
  SetActivity_not_connected exampleEnv lostWorld idleActivity rfl rfl

/-! ## Reconnection: claims C17 and C18 -/

/-- C17, evaluated on the code: an activity that has nothing but a timestamps block with
start and end zero is not empty for `IsEmpty`, although its document has no key but
`type`; a successful reconnect republishes it, writing a set-activity frame (operation
code 1) after the handshake frame. -/
theorem IsEmpty_zero_timestamps :
    zeroTimestampsActivity.IsEmpty = false
      ∧ mapKeys (payloadAct (normalizeActivity exampleEnv 0 zeroTimestampsActivity).1)
        = ["type"]
      ∧ writes (tryReconnect exampleEnv zeroTimestampsWorld (fun _ => some goodPipe)).trace
        = [[0, 0, 0, 0, 2, 0, 0, 0, 123, 125], [1, 0, 0, 0, 2, 0, 0, 0, 123, 125]] := by
  refine ⟨by decide, by decide, by decide⟩

/-- C18: after `Close`, whatever calls follow (connects that succeed or fail, closes,
`SetActivity`, inbound events, receive errors), the reconnect flag is false; and a receive
error in any such state only calls the error observer, if one is registered and a handle is
held: it sleeps and dials not at all, so no reconnect attempt is made. -/
theorem reconnect_stays_disabled (env : Env) (w : World) (calls : List Call)
    (dials : Nat → Option Conn) :
    (run env (Close w).1 calls).c.reconnect = false
      ∧ readLoop env dials [.error] (run env (Close w).1 calls)
        = (match (run env (Close w).1 calls).c.transport with
            | none => run env (Close w).1 calls
            | some _ =>
              if (run env (Close w).1 calls).c.onError then
                { run env (Close w).1 calls with
                  trace := (run env (Close w).1 calls).trace ++ [Effect.onError] }
              else run env (Close w).1 calls)
      ∧ ticks (readLoop env dials [.error] (run env (Close w).1 calls)).trace
        = ticks (run env (Close w).1 calls).trace := by
  have h := run_reconnect env (Close w).1 calls (Close_reconnect w)
  have h2 := readLoop_error_of_disabled env dials _ h
  refine ⟨h, h2, ?_⟩
  rw [h2]
  cases (run env (Close w).1 calls).c.transport with
  | none => rfl
  | some conn =>
    simp only
    split
    · simp only [ticks_append]
      simp [ticks]
    · rfl

/-! ## The read path and totality of decoding: claims C19 and C20 -/

theorem uint32LE_lt (b0 b1 b2 b3 : Byte) : uint32LE b0 b1 b2 b3 < 4294967296 := by
  unfold uint32LE
  have h0 := b0.isLt
  have h1 := b1.isLt
  have h2 := b2.isLt
  have h3 := b3.isLt
  omega

theorem copy_length (dst src : List Byte) : (copy dst src).length = dst.length := by
  unfold copy
  simp only [List.length_append, List.length_take, List.length_drop]
  omega

/-- The signed reading of the length field is out of range exactly when the unsigned
reading, which `Receive` tests, is. -/
theorem signed_length_invalid_iff (l0 l1 l2 l3 : Byte) :
    (int32 (uint32LE l0 l1 l2 l3 : Nat) < 0
        ∨ 10 * 1024 * 1024 < int32 (uint32LE l0 l1 l2 l3 : Nat))
      ↔ (((uint32LE l0 l1 l2 l3 : Nat) : Int) < 0
        ∨ ((uint32LE l0 l1 l2 l3 : Nat) : Int) > 10 * 1024 * 1024) := by
  have h := uint32LE_lt l0 l1 l2 l3
  unfold int32
  omega

theorem signed_length_of_valid (l0 l1 l2 l3 : Byte)
    (h : ¬ (int32 (uint32LE l0 l1 l2 l3 : Nat) < 0
        ∨ 10 * 1024 * 1024 < int32 (uint32LE l0 l1 l2 l3 : Nat))) :
    int32 (uint32LE l0 l1 l2 l3 : Nat) = (uint32LE l0 l1 l2 l3 : Nat) := by
  have hu := uint32LE_lt l0 l1 l2 l3
  unfold int32 at h ⊢
  omega

theorem Reader_Read_length (r : Reader) (p payload : List Byte) (r2 : Reader)
    (h : r.Read p = (.ok payload, r2)) : payload.length = p.length := by
  unfold Reader.Read at h
  split at h
  · cases h
    rfl
  · split at h
    · split at h
      · split at h
        · cases h
        · cases h
          exact copy_length _ _
      · split at h
        · cases h
        · cases h
          exact copy_length _ _
    · cases h
      exact copy_length _ _

theorem Reader_Read_nil (r : Reader) : r.Read [] = (.ok [], r) := by
  unfold Reader.Read
  simp

/-- What `Receive` does once the read of the header has returned. -/
theorem Receive_of_header (r r1 : Reader) (b0 b1 b2 b3 l0 l1 l2 l3 : Byte)
    (hh : r.Read (List.replicate 8 0) = (.ok [b0, b1, b2, b3, l0, l1, l2, l3], r1)) :
    Conn.Receive r
      = if ((uint32LE l0 l1 l2 l3 : Nat) : Int) < 0
            ∨ ((uint32LE l0 l1 l2 l3 : Nat) : Int) > 10 * 1024 * 1024 then
          (.error (.invalidPayloadLength (uint32LE l0 l1 l2 l3 : Nat)), r1)
        else
          match r1.Read (List.replicate (uint32LE l0 l1 l2 l3) 0) with
          | (.error e, r2) => (.error (.read e), r2)
          | (.ok payload, r2) =>
            (.ok (int32 (uint32LE b0 b1 b2 b3 : Nat), payload), r2) := by
  unfold Conn.Receive
  rw [hh]
  simp only [List.getD_cons_zero, List.getD_cons_succ, Int.toNat_ofNat]

/-- C19, refuted as stated: the pipe delivers a header that declares 2 body bytes and is
then closed; the read of the body returns `EOF` and `Receive` returns that error, not an
operation code and a body. -/
theorem Receive_body_read_error :
    Conn.Receive ⟨[], [.chunk [1, 0, 0, 0, 2, 0, 0, 0], .error "EOF"]⟩
        = (.error (.read "EOF"), ⟨[], []⟩)
      ∧ int32 (uint32LE 2 0 0 0 : Nat) = 2 :=
  ⟨rfl, rfl⟩

/-- C19, amended: once the read of the 8-byte header has returned, if the length in bytes
4..7, read as a signed 32-bit value, is negative or greater than 10 MiB, `Receive` returns
the `invalid payload length` error and leaves the reader as the header read left it;
otherwise it reads the body once, and returns the operation code of bytes 0..3 with a body
buffer of exactly the declared length when that read returns no error, and the read error
when it returns one; a declared length of 0 gives an empty body without touching the
reader. -/
theorem Receive_header_check (r r1 : Reader) (b0 b1 b2 b3 l0 l1 l2 l3 : Byte)
    (hh : r.Read (List.replicate 8 0) = (.ok [b0, b1, b2, b3, l0, l1, l2, l3], r1)) :
    ((int32 (uint32LE l0 l1 l2 l3 : Nat) < 0
          ∨ 10 * 1024 * 1024 < int32 (uint32LE l0 l1 l2 l3 : Nat)) →
        Conn.Receive r = (.error (.invalidPayloadLength (uint32LE l0 l1 l2 l3 : Nat)), r1))
    ∧ (¬ (int32 (uint32LE l0 l1 l2 l3 : Nat) < 0
          ∨ 10 * 1024 * 1024 < int32 (uint32LE l0 l1 l2 l3 : Nat)) →
        (∀ (payload : List Byte) (r2 : Reader),
          r1.Read (List.replicate (uint32LE l0 l1 l2 l3) 0) = (.ok payload, r2) →
            Conn.Receive r = (.ok (int32 (uint32LE b0 b1 b2 b3 : Nat), payload), r2)
            ∧ (payload.length : Int) = int32 (uint32LE l0 l1 l2 l3 : Nat))
        ∧ (∀ (e : String) (r2 : Reader),
          r1.Read (List.replicate (uint32LE l0 l1 l2 l3) 0) = (.error e, r2) →
            Conn.Receive r = (.error (.read e), r2))
        ∧ (int32 (uint32LE l0 l1 l2 l3 : Nat) = 0 →
            Conn.Receive r = (.ok (int32 (uint32LE b0 b1 b2 b3 : Nat), []), r1))) := by
  constructor
  · intro h
    rw [Receive_of_header r r1 b0 b1 b2 b3 l0 l1 l2 l3 hh,
      if_pos ((signed_length_invalid_iff l0 l1 l2 l3).1 h)]
  · intro h
    have hu := fun h' => h ((signed_length_invalid_iff l0 l1 l2 l3).2 h')
    have hs := signed_length_of_valid l0 l1 l2 l3 h
    refine ⟨?_, ?_, ?_⟩
    · intro payload r2 hr
      refine ⟨?_, ?_⟩
      · rw [Receive_of_header r r1 b0 b1 b2 b3 l0 l1 l2 l3 hh, if_neg hu, hr]
      · rw [Reader_Read_length _ _ _ _ hr, List.length_replicate, hs]
    · intro e r2 hr
      rw [Receive_of_header r r1 b0 b1 b2 b3 l0 l1 l2 l3 hh, if_neg hu, hr]
    · intro h0
      have hz : uint32LE l0 l1 l2 l3 = 0 := by
        rw [hs] at h0
        exact_mod_cast h0
      rw [Receive_of_header r r1 b0 b1 b2 b3 l0 l1 l2 l3 hh, if_neg hu, hz]
      simp only [List.replicate_zero]
      rw [Reader_Read_nil]

theorem Receive_header_check_witness :
    Conn.Receive ⟨[], [.chunk [1, 0, 0, 0, 255, 255, 255, 255, 123, 125]]⟩
        = (.error (.invalidPayloadLength 4294967295), ⟨[123, 125], []⟩)
      ∧ (Conn.Receive ⟨[], [.chunk [1, 0, 0, 0, 2, 0, 0, 0, 123, 125]]⟩
          = (.ok (int32 (uint32LE 1 0 0 0 : Nat), [123, 125]), ⟨[], []⟩)
        ∧ ((([123, 125] : List Byte).length : Nat) : Int) = int32 (uint32LE 2 0 0 0 : Nat))
      ∧ Conn.Receive ⟨[], [.chunk [3, 0, 0, 0, 0, 0, 0, 0], .chunk [9, 9]]⟩
          = (.ok (int32 (uint32LE 3 0 0 0 : Nat), []), ⟨[], [.chunk [9, 9]]⟩) :=
  ⟨(Receive_header_check ⟨[], [.chunk [1, 0, 0, 0, 255, 255, 255, 255, 123, 125]]⟩
      ⟨[123, 125], []⟩ 1 0 0 0 255 255 255 255 rfl).1 (by decide),
    ((Receive_header_check ⟨[], [.chunk [1, 0, 0, 0, 2, 0, 0, 0, 123, 125]]⟩
      ⟨[123, 125], []⟩ 1 0 0 0 2 0 0 0 rfl).2 (by decide)).1 [123, 125] ⟨[], []⟩ rfl,
    ((Receive_header_check ⟨[], [.chunk [3, 0, 0, 0, 0, 0, 0, 0], .chunk [9, 9]]⟩
      ⟨[], [.chunk [9, 9]]⟩ 3 0 0 0 0 0 0 0 rfl).2 (by decide)).2.2 (by decide)⟩

/-- C20: `DecodeFrameOp` never panics: on every buffer it returns a result or an error. -/
theorem DecodeFrameOp_total (b : List Byte) :
    ((∃ r, DecodeFrameOp b = .ok r) ∨ (∃ e, DecodeFrameOp b = .err e))
      ∧ ∀ msg, DecodeFrameOp b ≠ .panic msg := by
  have h : (∃ r, DecodeFrameOp b = .ok r) ∨ (∃ e, DecodeFrameOp b = .err e) := by
    by_cases h8 : b.length < 8
    · right
      refine ⟨.bufferTooSmall, ?_⟩
      unfold DecodeFrameOp
      rw [if_pos h8]
    · rw [DecodeFrameOp_of_le b (by omega)]
      split
      · exact Or.inl ⟨_, rfl⟩
      · exact Or.inr ⟨_, rfl⟩
  refine ⟨h, ?_⟩
  intro msg hp
  rcases h with ⟨r, hr⟩ | ⟨e, he⟩
  · rw [hr] at hp
    cases hp
  · rw [he] at hp
    cases hp

/-! ## Lemmas on the loop of `tryReconnect` in every state -/

theorem sleepsOf_append (t u : List Effect) : sleepsOf (t ++ u) = sleepsOf t ++ sleepsOf u := by
  induction t with
  | nil => rfl
  | cons e t ih =>
    cases e with
    | sleep n =>
      show n :: sleepsOf (t ++ u) = n :: sleepsOf t ++ sleepsOf u
      rw [ih]
      rfl
    | _ =>
      show sleepsOf (t ++ u) = sleepsOf t ++ sleepsOf u
      exact ih

theorem sleepsOf_sleepThen (w : World) (b : Nat) :
    sleepsOf (sleepThen w b).trace = sleepsOf w.trace ++ [b] := by
  unfold sleepThen
  simp only [sleepsOf_append]
  rfl

theorem Connect_sleepsOf (env : Env) (w : World) (dial : Option Conn) :
    sleepsOf (Connect env w dial).1.trace = sleepsOf w.trace := by
  cases h : w.c.transport with
  | some conn => rw [Connect_of_some env w dial conn h]
  | none =>
    cases dial with
    | none =>
      rw [Connect_dial_failed env w h]
      simp only [sleepsOf_append]
      simp [sleepsOf]
    | some pipe =>
      by_cases hw : pipe.writeFails = true
      · rw [Connect_handshake_failed env w pipe h hw]
        simp only [sleepsOf_append]
        simp [sleepsOf]
      · rw [Connect_succeeded env w pipe h (by simpa using hw)]
        simp only [sleepsOf_append]
        simp [sleepsOf]

theorem sendSetActivity_sleepsOf (env : Env) (w : World) (a : Activity) :
    sleepsOf (sendSetActivity env w a).1.trace = sleepsOf w.trace := by
  unfold sendSetActivity
  cases w.c.transport with
  | none => rfl
  | some conn =>
    simp only [Conn.SendOp, EncodeFrameOp, Conn.SendRaw]
    by_cases hc : conn.closed = true
    · simp only [hc, if_true]
    · simp only [hc, Bool.false_eq_true, if_false, sleepsOf_append]
      simp [sleepsOf]

theorem republish_sleepsOf (env : Env) (w : World) :
    sleepsOf (republish env w).trace = sleepsOf w.trace := by
  unfold republish
  split
  · unfold SetActivity
    by_cases h : w.c.ready = true
    · simp only [h, Bool.not_true, Bool.false_eq_true, if_false]
      rw [sendSetActivity_sleepsOf]
    · simp only [h, Bool.not_false, if_true]
  · rfl

theorem attemptResult_zero (env : Env) (dials : Nat → Option Conn) (i b : Nat) (w : World) :
    attemptResult env dials 0 i b w = Connect env (sleepThen w b) (dials i) := by
  unfold attemptResult
  simp [afterAttempts]

theorem attemptResult_succ (env : Env) (dials : Nat → Option Conn) (j i b : Nat) (w : World) :
    attemptResult env dials (j + 1) i b w
      = attemptResult env dials j (i + 1) (b * 2) (Connect env (sleepThen w b) (dials i)).1 := by
  unfold attemptResult
  have e1 : b * 2 ^ (j + 1) = b * 2 * 2 ^ j := by ring
  have e2 : i + (j + 1) = i + 1 + j := by omega
  rw [e1, e2]
  rfl

theorem afterAttempts_sleepsOf (env : Env) (dials : Nat → Option Conn) (k : Nat) :
    ∀ (i b : Nat) (w : World),
      sleepsOf (afterAttempts env dials k i b w).trace
        = sleepsOf w.trace ++ (List.range k).map (fun j => b * 2 ^ j) := by
  induction k with
  | zero =>
    intro i b w
    simp [afterAttempts]
  | succ k ih =>
    intro i b w
    rw [afterAttempts, ih, Connect_sleepsOf, sleepsOf_sleepThen, List.range_succ_eq_map]
    simp only [List.map_cons, List.map_map, List.append_assoc, List.singleton_append,
      pow_zero, Nat.mul_one]
    congr 2
    apply List.map_congr_left
    intro a _
    simp only [Function.comp_apply, Nat.succ_eq_add_one, pow_succ]
    ring

/-- The loop when its first `k` iterations fail in `Connect` and the next one succeeds. -/
theorem tryReconnectLoop_success (env : Env) (dials : Nat → Option Conn) (k : Nat) :
    ∀ (m i b : Nat) (w : World), k < m →
      (∀ j, j < k → (attemptResult env dials j i b w).2 ≠ none) →
      (attemptResult env dials k i b w).2 = none →
      tryReconnectLoop env dials m i b w = republish env (attemptResult env dials k i b w).1 := by
  induction k with
  | zero =>
    intro m i b w hm _ hs
    obtain ⟨n, rfl⟩ : ∃ n, m = n + 1 := ⟨m - 1, by omega⟩
    rw [attemptResult_zero] at hs ⊢
    rw [tryReconnectLoop_of_ok env dials n i b w hs]
    rfl
  | succ k ih =>
    intro m i b w hm hf hs
    obtain ⟨n, rfl⟩ : ∃ n, m = n + 1 := ⟨m - 1, by omega⟩
    have h0 := hf 0 (by omega)
    rw [attemptResult_zero] at h0
    obtain ⟨e, he⟩ : ∃ e, (Connect env (sleepThen w b) (dials i)).2 = some e := by
      cases hx : (Connect env (sleepThen w b) (dials i)).2 with
      | none => exact absurd hx h0
      | some e => exact ⟨e, rfl⟩
    rw [tryReconnectLoop_of_error env dials n i b w e he, attemptResult_succ]
    exact ih n (i + 1) (b * 2) _ (by omega)
      (fun j hj => by
        have := hf (j + 1) (by omega)
        rwa [attemptResult_succ] at this)
      (by rwa [attemptResult_succ] at hs)

/-- The loop when all of its `k` iterations fail in `Connect`. -/
theorem tryReconnectLoop_failure (env : Env) (dials : Nat → Option Conn) (k : Nat) :
    ∀ (i b : Nat) (w : World),
      (∀ j, j < k → (attemptResult env dials j i b w).2 ≠ none) →
      tryReconnectLoop env dials k i b w = afterAttempts env dials k i b w := by
  induction k with
  | zero =>
    intro i b w _
    rfl
  | succ k ih =>
    intro i b w hf
    have h0 := hf 0 (by omega)
    rw [attemptResult_zero] at h0
    obtain ⟨e, he⟩ : ∃ e, (Connect env (sleepThen w b) (dials i)).2 = some e := by
      cases hx : (Connect env (sleepThen w b) (dials i)).2 with
      | none => exact absurd hx h0
      | some e => exact ⟨e, rfl⟩
    rw [tryReconnectLoop_of_error env dials k i b w e he, afterAttempts]
    exact ih (i + 1) (b * 2) _
      (fun j hj => by
        have := hf (j + 1) (by omega)
        rwa [attemptResult_succ] at this)

theorem tryReconnectLoopDuring_nil (env : Env) (dials : Nat → Option Conn) (n : Nat) :
    ∀ (i b : Nat) (w : World),
      tryReconnectLoopDuring env dials (fun _ => []) n i b w
        = tryReconnectLoop env dials n i b w := by
  induction n with
  | zero =>
    intro i b w
    rfl
  | succ n ih =>
    intro i b w
    rw [tryReconnectLoopDuring, tryReconnectLoop]
    simp only [run, List.foldl_nil, ih]

/-- Without calls of the application during the sleeps, `readLoopDuring` is `readLoop`. -/
theorem readLoopDuring_nil (env : Env) (dials : Nat → Option Conn) (rs : List Received) :
    ∀ w : World, readLoopDuring env dials (fun _ => []) rs w = readLoop env dials rs w := by
  induction rs with
  | nil =>
    intro w
    rfl
  | cons r rest ih =>
    intro w
    cases ht : w.c.transport with
    | none =>
      simp only [readLoopDuring, readLoop, ht]
    | some conn =>
      cases r with
      | error =>
        simp only [readLoopDuring, readLoop, ht, tryReconnectLoopDuring_nil, tryReconnect]
      | undecodable op =>
        simp only [readLoopDuring, readLoop, ht]
        exact ih w
      | frame op doc =>
        simp only [readLoopDuring, readLoop, ht]
        exact ih _

theorem afterAttempts_holding_handle (env : Env) (dials : Nat → Option Conn) (conn : Conn)
    (k : Nat) : ∀ (i b : Nat) (w : World), w.c.transport = some conn →
      (afterAttempts env dials k i b w).c = w.c := by
  induction k with
  | zero =>
    intro i b w _
    rfl
  | succ k ih =>
    intro i b w ht
    have hc := Connect_of_some env (sleepThen w b) (dials i) conn ht
    rw [afterAttempts, hc]
    exact ih (i + 1) (b * 2) (sleepThen w b) ht

theorem attemptResult_holding_handle (env : Env) (dials : Nat → Option Conn) (conn : Conn)
    (j i b : Nat) (w : World) (ht : w.c.transport = some conn) :
    (attemptResult env dials j i b w).2 = some .alreadyConnected := by
  unfold attemptResult
  have hc : (sleepThen (afterAttempts env dials j i b w) (b * 2 ^ j)).c.transport
      = some conn := by
    show (afterAttempts env dials j i b w).c.transport = some conn
    rw [afterAttempts_holding_handle env dials conn j i b w ht]
    exact ht
  rw [Connect_of_some env _ _ conn hc]

/-! ## Reconnection: claims C11 and C12 -/

/-- C11, evaluated on the code. The application connects, READY arrives, the application
publishes `exampleActivity` (state `Playing`), and the receive loop gets a receive error
while reconnection is enabled. Run by itself, `tryReconnect` sleeps 5 times and never
dials, the dead handle being still held: the activity is never republished. When the
application calls `Close` during the first sleep, the handle is released, the next
`Connect` of the loop succeeds, and the loop writes the handshake frame and, at once, the
set-activity frame: the frame is on the new connection before any event of that
connection has been handled, nothing is left pending, and the READY event of the new
connection writes nothing. -/
theorem republish_before_READY :
    (publishedWorld.c.ready = true ∧ publishedWorld.c.reconnect = true
        ∧ publishedWorld.c.closed = false ∧ publishedWorld.c.transport = some goodPipe
        ∧ publishedWorld.c.activity = exampleActivity)
      ∧ publishedWorld.trace
        = [Effect.dial true, Effect.write [0, 0, 0, 0, 0, 0, 0, 0], Effect.spawnReadLoop,
            Effect.write [1, 0, 0, 0, 7, 0, 0, 0, 80, 108, 97, 121, 105, 110, 103]]
      ∧ (readLoop stateEnv (fun _ => some goodPipe) [.error] publishedWorld).trace
        = publishedWorld.trace
          ++ [Effect.sleep 1, Effect.sleep 2, Effect.sleep 4, Effect.sleep 8, Effect.sleep 16]
      ∧ (readLoopDuring stateEnv (fun _ => some goodPipe) closeInFirstSleep [.error]
          publishedWorld).trace
        = publishedWorld.trace
          ++ [Effect.sleep 1, Effect.closeConn, Effect.dial true,
              Effect.write [0, 0, 0, 0, 0, 0, 0, 0], Effect.spawnReadLoop,
              Effect.write [1, 0, 0, 0, 7, 0, 0, 0, 80, 108, 97, 121, 105, 110, 103]]
      ∧ (readLoopDuring stateEnv (fun _ => some goodPipe) closeInFirstSleep [.error]
          publishedWorld).c.pendingActivity = none
      ∧ writes (handleIncoming stateEnv
          (readLoopDuring stateEnv (fun _ => some goodPipe) closeInFirstSleep [.error]
            publishedWorld) OpFrame readyDoc).trace
        = writes (readLoopDuring stateEnv (fun _ => some goodPipe) closeInFirstSleep [.error]
            publishedWorld).trace :=
  ⟨⟨rfl, rfl, rfl, rfl, rfl⟩, rfl, rfl, rfl, rfl, rfl⟩

/-- C12, refuted as stated: in the run of C11 with a dial that fails 3 times and then
succeeds, the loop sleeps 1, 2, 4 and 8 seconds, each sleep before a dial, so that the
delays between consecutive attempts are 2, 4 and 8 seconds; the same holds of
`tryReconnect` on the closed session. -/
theorem tryReconnect_delays_after_3_failures :
    ticks ((readLoopDuring stateEnv dialsAfter3 closeInFirstSleep [.error]
        publishedWorld).trace.drop publishedWorld.trace.length)
      = [Tick.sleep 1, Tick.dial, Tick.sleep 2, Tick.dial, Tick.sleep 4, Tick.dial,
          Tick.sleep 8, Tick.dial]
    ∧ delaysBetween (ticks ((readLoopDuring stateEnv dialsAfter3 closeInFirstSleep [.error]
        publishedWorld).trace.drop publishedWorld.trace.length))
      = [2, 4, 8]
    ∧ delaysBetween (ticks ((tryReconnect stateEnv closedWorld dialsAfter3).trace.drop
        closedWorld.trace.length))
      = [2, 4, 8] := by
  refine ⟨by decide, by decide, by decide⟩

/-- C12, amended: in every state, if the `Connect` calls of the first `n < 5` iterations
of `tryReconnect` fail and that of iteration `n + 1` succeeds, `tryReconnect` performs
exactly these `n + 1` attempts, each preceded by its sleep, the sleeps being 1, 2, ...,
2^n seconds, and republishes; if all attempts fail it performs exactly 5 attempts,
preceded by sleeps of 1, 2, 4, 8, 16 seconds, and stops. With a transport handle held, as
when the receive loop calls `tryReconnect`, every attempt fails as `already connected`
and nothing is dialled or written. Without a handle every attempt dials, and the delays
between consecutive dials are 2, ..., 2^n. -/
theorem tryReconnect_schedule (env : Env) (w : World) (dials : Nat → Option Conn) :
    (∀ n, n < 5 → (∀ j, j < n → (attemptResult env dials j 0 1 w).2 ≠ none) →
        (attemptResult env dials n 0 1 w).2 = none →
        tryReconnect env w dials = republish env (attemptResult env dials n 0 1 w).1
        ∧ sleepsOf (tryReconnect env w dials).trace
            = sleepsOf w.trace ++ (List.range (n + 1)).map (fun j => 2 ^ j))
    ∧ ((∀ j, j < 5 → (attemptResult env dials j 0 1 w).2 ≠ none) →
        tryReconnect env w dials = afterAttempts env dials 5 0 1 w
        ∧ sleepsOf (tryReconnect env w dials).trace = sleepsOf w.trace ++ [1, 2, 4, 8, 16])
    ∧ (∀ j, attemptResult env dials j 0 1 w
        = Connect env (sleepThen (afterAttempts env dials j 0 1 w) (2 ^ j)) (dials j))
    ∧ afterAttempts env dials 2 0 1 w
        = (Connect env (sleepThen (Connect env (sleepThen w 1) (dials 0)).1 2) (dials 1)).1
    ∧ (∀ conn, w.c.transport = some conn →
        (∀ j, (attemptResult env dials j 0 1 w).2 = some .alreadyConnected)
        ∧ (tryReconnect env w dials).c = w.c
        ∧ writes (tryReconnect env w dials).trace = writes w.trace
        ∧ ticks (tryReconnect env w dials).trace
            = ticks w.trace ++ [Tick.sleep 1, Tick.sleep 2, Tick.sleep 4, Tick.sleep 8,
                Tick.sleep 16])
    ∧ (w.c.transport = none → ∀ n, n < 5 → (∀ j, j < n → attemptFails (dials j) = true) →
        attemptFails (dials n) = false →
        ticks (tryReconnect env w dials).trace = ticks w.trace ++ attemptSchedule n 1)
    ∧ attemptSchedule 3 1
        = [Tick.sleep 1, Tick.dial, Tick.sleep 2, Tick.dial, Tick.sleep 4, Tick.dial,
            Tick.sleep 8, Tick.dial]
    ∧ (∀ n, n < 5 → (attemptSchedule n 1).count Tick.dial = n + 1
        ∧ delaysBetween (attemptSchedule n 1) = (List.range n).map (fun i => 2 ^ (i + 1))) := by
  refine ⟨?_, ?_, ?_, rfl, ?_, ?_, by decide, by decide⟩
  · intro n hn hf hs
    have he : tryReconnect env w dials = republish env (attemptResult env dials n 0 1 w).1 :=
      tryReconnectLoop_success env dials n 5 0 1 w hn hf hs
    refine ⟨he, ?_⟩
    rw [he, republish_sleepsOf]
    unfold attemptResult
    rw [Connect_sleepsOf, sleepsOf_sleepThen, afterAttempts_sleepsOf, List.range_succ]
    simp
  · intro hf
    have he : tryReconnect env w dials = afterAttempts env dials 5 0 1 w :=
      tryReconnectLoop_failure env dials 5 0 1 w hf
    refine ⟨he, ?_⟩
    rw [he, afterAttempts_sleepsOf]
    simp [List.range_succ]
  · intro j
    unfold attemptResult
    simp
  · intro conn ht
    obtain ⟨h1, h2, h3⟩ := tryReconnectLoop_holding_handle env dials conn 5 0 1 w ht
    refine ⟨fun j => attemptResult_holding_handle env dials conn j 0 1 w ht, h1, h2, ?_⟩
    unfold tryReconnect
    rw [h3]
    simp [List.range_succ]
  · intro ht n hn hf hs
    unfold tryReconnect
    exact tryReconnectLoop_ticks env dials n 5 0 1 w hn ht
      (fun j hj => by simpa using hf j hj) (by simpa using hs)

theorem tryReconnect_schedule_witness :
    (tryReconnect stateEnv closedWorld dialsAfter3
        = republish stateEnv (attemptResult stateEnv dialsAfter3 3 0 1 closedWorld).1
      ∧ sleepsOf (tryReconnect stateEnv closedWorld dialsAfter3).trace
          = sleepsOf closedWorld.trace ++ (List.range (3 + 1)).map (fun j => 2 ^ j))
    ∧ (tryReconnect stateEnv publishedWorld dialsAfter3
        = afterAttempts stateEnv dialsAfter3 5 0 1 publishedWorld
      ∧ sleepsOf (tryReconnect stateEnv publishedWorld dialsAfter3).trace
          = sleepsOf publishedWorld.trace ++ [1, 2, 4, 8, 16])
    ∧ ticks (tryReconnect stateEnv closedWorld dialsAfter3).trace
        = ticks closedWorld.trace ++ attemptSchedule 3 1 :=
  ⟨(tryReconnect_schedule stateEnv closedWorld dialsAfter3).1 3 (by decide)
      (by decide) (by decide),
    (tryReconnect_schedule stateEnv publishedWorld dialsAfter3).2.1 (by decide),
    (tryReconnect_schedule stateEnv closedWorld dialsAfter3).2.2.2.2.2.1 rfl 3 (by decide)
      (by decide) (by decide)⟩

end DiscordRPC
